import Mathlib

/-!
Shallow embedding of `torch/quantization/fx/_equalize.py`: input-weight
equalization for linear layers ahead of FX quantization.  Tensor entries are
modelled as real numbers; the 0-dim / 1-dim tensors handled by the scale
calculator are modelled by `QTensor`.  Functions that can raise return
`Except String`.
-/

namespace Equalize

/-- A torch tensor of the two shapes the scale calculator produces:
a 0-dim scalar (`torch.tensor(1)`) or a 1-dim vector. -/
inductive QTensor where
  | scalar (x : ℝ)
  | vec (v : List ℝ)

/-- `Tensor.nelement()`: a 0-dim tensor has one element, a 1-dim tensor has
its length many. -/
def QTensor.nelement : QTensor → Nat
  | .scalar _ => 1
  | .vec v => v.length

/-- `torch.min` of a 1-dim tensor (empty input is an error in torch; every
call site below is guarded by a nonemptiness hypothesis). -/
def torchMin : List ℝ → ℝ
  | [] => 0
  | x :: xs => xs.foldl min x

/-- `torch.max` of a 1-dim tensor. -/
def torchMax : List ℝ → ℝ
  | [] => 0
  | x :: xs => xs.foldl max x

/-- Modelled from the spec: `check_min_max_valid` (imported from
`torch.quantization.utils`, which is not among the sources) decides whether a
pair of running min/max statistics vectors is usable: the statistics must not
be left at the collector's uninitialized sentinel (for the per-channel
collector used here this is the empty tensor) and every channel must satisfy
`min <= max`; in this real-valued model NaN and infinities do not arise. -/
def check_min_max_valid (min_vals max_vals : List ℝ) : Prop :=
  min_vals ≠ [] ∧ max_vals ≠ [] ∧
    ∀ p ∈ List.zip min_vals max_vals, p.1 ≤ p.2

noncomputable instance (min_vals max_vals : List ℝ) :
    Decidable (check_min_max_valid min_vals max_vals) :=
  inferInstanceAs (Decidable (_ ∧ _ ∧ _))

/-- State of a `PerChannelMinMaxObserver` with `ch_axis = 1`: running
per-column minima and maxima.  Freshly constructed observers hold empty
vectors. -/
structure PerChannelMinMaxObserver where
  min_vals : List ℝ
  max_vals : List ℝ

/-- State of an `_InputEqualizationObserver`: a wrapped per-column collector
plus the equalization scale, initialized to `torch.empty(0)`. -/
structure InputEqualizationObserver where
  input_obs : PerChannelMinMaxObserver
  equalization_scale : QTensor

/-- State of a `_WeightEqualizationObserver`: a wrapped per-column collector
plus the equalization scale, initialized to `torch.empty(0)`. -/
structure WeightEqualizationObserver where
  weight_col_obs : PerChannelMinMaxObserver
  equalization_scale : QTensor

/-- `_InputEqualizationObserver.get_input_minmax`. -/
def InputEqualizationObserver.get_input_minmax (obs : InputEqualizationObserver) :
    List ℝ × List ℝ :=
  (obs.input_obs.min_vals, obs.input_obs.max_vals)

/-- `_WeightEqualizationObserver.get_weight_col_minmax`. -/
def WeightEqualizationObserver.get_weight_col_minmax (obs : WeightEqualizationObserver) :
    List ℝ × List ℝ :=
  (obs.weight_col_obs.min_vals, obs.weight_col_obs.max_vals)

/-- The elementwise body of `calculate_equalization_scale`:
`torch.sqrt((max_weights - min_weights) / (max_inputs - min_inputs))`. -/
noncomputable def eqScaleVec (min_inputs max_inputs min_weights max_weights : List ℝ) :
    List ℝ :=
  List.zipWith (fun dw di => Real.sqrt (dw / di))
    (List.zipWith (fun a b => a - b) max_weights min_weights)
    (List.zipWith (fun a b => a - b) max_inputs min_inputs)

/-- `calculate_equalization_scale`: identity fallback `torch.tensor(1)` when
either side's statistics are invalid, a `ValueError` when the (valid) vectors
have mismatched shapes, and otherwise the per-channel square-root ratio of
ranges. -/
noncomputable def calculate_equalization_scale (input_obs : InputEqualizationObserver)
    (weight_obs : WeightEqualizationObserver) : Except String QTensor :=
  if ¬ (check_min_max_valid input_obs.get_input_minmax.1 input_obs.get_input_minmax.2 ∧
        check_min_max_valid weight_obs.get_weight_col_minmax.1
          weight_obs.get_weight_col_minmax.2) then
    .ok (.scalar 1)
  else if ¬ (input_obs.get_input_minmax.1.length =
             weight_obs.get_weight_col_minmax.1.length) then
    .error "ValueError: Input and Weight must have the same column dimension."
  else
    .ok (.vec (eqScaleVec input_obs.get_input_minmax.1 input_obs.get_input_minmax.2
          weight_obs.get_weight_col_minmax.1 weight_obs.get_weight_col_minmax.2))

/-- A torch tensor of dimension 1, 2 or 3, as fed to the observers'
`forward` (only the dimension count and 2-dim contents matter here). -/
inductive PTensor where
  | dim1 (v : List ℝ)
  | dim2 (m : List (List ℝ))
  | dim3 (c : List (List (List ℝ)))

/-- `Tensor.ndim`. -/
def PTensor.ndim : PTensor → Nat
  | .dim1 _ => 1
  | .dim2 _ => 2
  | .dim3 _ => 3

/-- Reduce a 2-dim tensor along dimension 0 (torch reduction with `dim=0`):
fold the rows together elementwise.  Used with `min`/`max` to model the
per-column statistics of `PerChannelMinMaxObserver` with `ch_axis = 1`. -/
def colReduce (f : ℝ → ℝ → ℝ) : List (List ℝ) → List ℝ
  | [] => []
  | r :: rs => rs.foldl (fun acc row => List.zipWith f acc row) r

/-- Modelled from the spec: the statistics collector
(`PerChannelMinMaxObserver.forward`, defined in `torch.quantization.observer`,
which is not among the sources) updates the running per-channel (per-column,
`ch_axis = 1`) minima and maxima with a batch; an uninitialized collector
(empty `min_vals`) adopts the batch's column ranges. -/
noncomputable def record (obs : PerChannelMinMaxObserver) (x : List (List ℝ)) :
    PerChannelMinMaxObserver :=
  if obs.min_vals.isEmpty then ⟨colReduce min x, colReduce max x⟩
  else ⟨List.zipWith min obs.min_vals (colReduce min x),
        List.zipWith max obs.max_vals (colReduce max x)⟩

/-- `_InputEqualizationObserver.forward`: raise a `ValueError` unless the
input is 2-dim, otherwise feed it to the wrapped per-channel collector. -/
noncomputable def InputEqualizationObserver.forward (obs : InputEqualizationObserver)
    (x_orig : PTensor) : Except String InputEqualizationObserver :=
  match x_orig with
  | .dim2 m => .ok { obs with input_obs := record obs.input_obs m }
  | _ => .error "ValueError: InputEqualizationObserver only supports Linear layers"

/-- `_WeightEqualizationObserver.forward`: raise a `ValueError` unless the
input is 2-dim, otherwise feed it to the wrapped per-channel collector. -/
noncomputable def WeightEqualizationObserver.forward (obs : WeightEqualizationObserver)
    (w_orig : PTensor) : Except String WeightEqualizationObserver :=
  match w_orig with
  | .dim2 m => .ok { obs with weight_col_obs := record obs.weight_col_obs m }
  | _ => .error "ValueError: WeightEqualizationObserver only supports Linear layers"

/-- `torch.mul` of a 1-dim tensor with an equalization scale, broadcasting a
0-dim scale across all entries and multiplying elementwise otherwise. -/
def mulBroadcast (v : List ℝ) : QTensor → List ℝ
  | .scalar x => v.map (· * x)
  | .vec w => List.zipWith (· * ·) v w

/-- `_InputEqualizationObserver.calculate_scaled_minmax`: when the
equalization scale is still `torch.empty(0)`, warn (the boolean component)
and return the default `(tensor([0]), tensor([0]))`; otherwise return the
extrema of the columnwise-scaled input ranges. -/
noncomputable def calculate_scaled_minmax (obs : InputEqualizationObserver) :
    Bool × ℝ × ℝ :=
  if obs.equalization_scale.nelement = 0 then
    (true, 0, 0)
  else
    (false,
     torchMin (mulBroadcast obs.get_input_minmax.1 obs.equalization_scale),
     torchMax (mulBroadcast obs.get_input_minmax.2 obs.equalization_scale))

/-- The node kinds of a `torch.fx` graph that this pass inspects. -/
inductive FxOp where
  | placeholder
  | call_module
  | call_function
  | get_attr
deriving DecidableEq

/-- A `torch.fx` node.  `name` is the node's unique name; `target` is the
module path (`call_module`), the attribute path (`get_attr`) or the called
function, written as a string (`call_function`); `args` holds the names of
the argument nodes (no constant arguments occur at the sites modelled
here). -/
structure FxNode where
  name : String
  op : FxOp
  target : String
  args : List String
deriving DecidableEq

/-- A graph is its topologically ordered node list. -/
abbrev FxGraph := List FxNode

/-- The named submodules this pass can meet in the `modules` dictionary.
`quantObsReset` is a quantization observer whose min/max were reset to the
uncomputed sentinel `(+inf, -inf)` (modelled as a distinguished state, since
the embedding's reals have no infinities). -/
inductive FxModule where
  | linear (weight : List (List ℝ)) (bias : Option (List ℝ))
  | inputEqObs (obs : InputEqualizationObserver)
  | weightEqObs (obs : WeightEqualizationObserver)
  | quantObs (min_val max_val : ℝ)
  | quantObsReset
  | other

/-- The `modules` dictionary of the model. -/
abbrev Modules := String → Option FxModule

/-- Update one entry of the `modules` dictionary. -/
def setModule (ms : Modules) (k : String) (v : FxModule) : Modules :=
  fun s => if s = k then some v else ms s

/-- A value stored behind a `get_attr` target on the model: a 2-dim weight,
or a 0/1-dim tensor (a bias or an equalization-scale constant). -/
inductive TVal where
  | mat (rows : List (List ℝ))
  | ten (t : QTensor)

/-- The model's attribute storage, keyed by `get_attr` target. -/
abbrev Attrs := String → Option TVal

/-- Update one model attribute. -/
def setAttr (ats : Attrs) (k : String) (v : TVal) : Attrs :=
  fun s => if s = k then some v else ats s

/-- Look a node up by name. -/
def findNode (g : FxGraph) (n : String) : Option FxNode :=
  g.find? (fun m => m.name == n)

/-- `node.users`: the nodes that take `n` as an argument, in graph order. -/
def node_users (g : FxGraph) (n : String) : List FxNode :=
  g.filter (fun m => m.args.contains n)

/-- Is the module an `nn.Linear`? -/
def isLinearMod : Option FxModule → Bool
  | some (.linear _ _) => true
  | _ => false

/-- `node_supports_equalization`: an `nn.Linear` module call or a call of
`torch.nn.functional.linear`. -/
def node_supports_equalization (node : FxNode) (ms : Modules) : Bool :=
  match node.op with
  | .call_module => isLinearMod (ms node.target)
  | .call_function => node.target == "torch.nn.functional.linear"
  | _ => false

/-- `Node.replace_input_with`: rewrite every argument `old` to `new_arg`. -/
def replace_input_with (n : FxNode) (old new_arg : String) : FxNode :=
  { n with args := n.args.map fun a => if a = old then new_arg else a }

/-- `remove_node`: relink every user of `node` to `prev`, then erase `node`
from the graph. -/
def remove_node (g : FxGraph) (node prev : FxNode) : FxGraph :=
  (g.map fun m => replace_input_with m node.name prev.name).filter
    (fun m => m.name != node.name)

/-- `scale_input_observer`: write the scaled min/max computed by the input
equalization observer at `node` into the preceding input quantization
observer; a preceding module that is not an observer is left alone. -/
noncomputable def scale_input_observer (node : FxNode) (g : FxGraph) (ms : Modules) :
    Except String Modules :=
  match ms node.target with
  | some (.inputEqObs input_eq_obs) =>
    match node.args with
    | [] => .error "IndexError: node.args is empty"
    | a :: _ =>
      match findNode g a with
      | none => .error "KeyError: dangling argument node"
      | some input_quant_obs_node =>
        match ms input_quant_obs_node.target with
        | none => .error "KeyError: input quantization observer module"
        | some (.quantObs _ _) =>
          let r := calculate_scaled_minmax input_eq_obs
          .ok (setModule ms input_quant_obs_node.target (.quantObs r.2.1 r.2.2))
        | some .quantObsReset =>
          let r := calculate_scaled_minmax input_eq_obs
          .ok (setModule ms input_quant_obs_node.target (.quantObs r.2.1 r.2.2))
        | some _ => .ok ms
  | _ => .error "assert failed: expected an InputEqualizationObserver"

/-- `torch.reciprocal`. -/
noncomputable def QTensor.reciprocal : QTensor → QTensor
  | .scalar x => .scalar x⁻¹
  | .vec v => .vec (v.map (·⁻¹))

/-- `torch.mul` of a `[out_features, in_features]` weight with a scale,
broadcasting a 0-dim scale everywhere and a 1-dim scale (of length
`in_features`) across the input-feature axis. -/
noncomputable def mulMat (w : List (List ℝ)) : QTensor → List (List ℝ)
  | .scalar x => w.map (fun row => row.map (· * x))
  | .vec v => w.map (fun row => List.zipWith (· * ·) row v)

/-- `torch.mul` of a weight with a `[out_features, 1]` column: row `i` is
multiplied by the column's entry `i`. -/
noncomputable def mulMatCol (w : List (List ℝ)) (c : List ℝ) : List (List ℝ) :=
  List.zipWith (fun row x => row.map (· * x)) w c

/-- `Tensor.view(new_shape)` with `new_shape = [out_features, 1]`: succeeds
exactly when the element count matches. -/
noncomputable def viewCol (t : QTensor) (out_features : Nat) : Except String (List ℝ) :=
  match t with
  | .scalar x =>
    if out_features = 1 then .ok [x] else .error "RuntimeError: view size mismatch"
  | .vec v =>
    if v.length = out_features then .ok v else .error "RuntimeError: view size mismatch"

/-- `scale_weight_node`: rescale an `nn.Linear` module's weight by the
reciprocal equalization scale (input-feature axis) and, when a next scale is
present, also row-wise by the next scale, additionally scaling the bias
(which the source asserts to be a tensor in that case). -/
noncomputable def scale_weight_node (node : FxNode) (ms : Modules)
    (equalization_scale : QTensor) (next_equalization_scale : Option QTensor) :
    Except String Modules :=
  match ms node.target with
  | some (.linear weight bias) =>
    let scaled_weight := mulMat weight equalization_scale.reciprocal
    match next_equalization_scale with
    | none => .ok (setModule ms node.target (.linear scaled_weight bias))
    | some next_scale =>
      match viewCol next_scale weight.length with
      | .error e => .error e
      | .ok c =>
        let scaled_weight2 := mulMatCol scaled_weight c
        match bias with
        | none => .error "AssertionError: bias is not a tensor"
        | some b =>
          .ok (setModule ms node.target
            (.linear scaled_weight2 (some (mulBroadcast b next_scale))))
  | _ => .error "AttributeError: module has no attribute weight"

/-- Modelled from the spec: `WEIGHT_INDEX_DICT` (imported from `.utils`,
which is not among the sources) maps each supported functional operator to
the argument indices where its weight may appear; for the functional linear
call the weight is operand index 1 of the canonical lowering. -/
def WEIGHT_INDEX_DICT : String → Option (List Nat)
  | "torch.nn.functional.linear" => some [1]
  | _ => none

/-- The offset table of `maybe_get_functional_weight_node`. -/
def WEIGHT_ATTR_INDEX_DICT : String → Nat
  | "eq_obs" => 1
  | "quant_obs" => 2
  | "get_attr" => 3
  | _ => 0

/-- The first argument whose position is among the weight indices. -/
def pickWeightArg : List String → List Nat → Nat → Option String
  | [], _, _ => none
  | a :: rest, idxs, i =>
    if idxs.contains i then some a else pickWeightArg rest idxs (i + 1)

/-- Walk `k` times from a node to its first argument (`node = node.args[0]`),
raising a `LookupError` when the walk falls off the graph. -/
def stepBackArgs (g : FxGraph) : Nat → FxNode → Except String FxNode
  | 0, node => .ok node
  | k + 1, node =>
    match node.args with
    | [] => .error "LookupError: Could not find the node"
    | a :: _ =>
      match findNode g a with
      | none => .error "LookupError: Could not find the node"
      | some n => stepBackArgs g k n

/-- Is the module a `_WeightEqualizationObserver`? -/
def isWeightEqObsMod : Option FxModule → Bool
  | some (.weightEqObs _) => true
  | _ => false

/-- Is the module a `_InputEqualizationObserver`? -/
def isInputEqObsMod : Option FxModule → Bool
  | some (.inputEqObs _) => true
  | _ => false

/-- Is the module an `ObserverBase` (a quantization observer)? -/
def isQuantObsMod : Option FxModule → Bool
  | some (.quantObs _ _) => true
  | some .quantObsReset => true
  | _ => false

/-- `maybe_get_functional_weight_node`: locate the weight-side node the given
number of steps behind the functional operator.  The Python signature
promises `Optional[Node]`, but every failing path raises
(`LookupError`/`AssertionError`) and the successful path returns a node, so
the result is modelled as `Except String (Option FxNode)` with `.ok none`
never produced (see the C8 theorems). -/
def maybe_get_functional_weight_node (g : FxGraph) (op_node : FxNode) (ms : Modules)
    (attr : String) : Except String (Option FxNode) :=
  match WEIGHT_INDEX_DICT op_node.target with
  | none => .error "AssertionError: op node is not a supported functional operator"
  | some idxs =>
    if op_node.op ≠ FxOp.call_function then
      .error "AssertionError: op node is not a call_function node"
    else
      match pickWeightArg op_node.args idxs 0 with
      | none => .error "LookupError: Could not find the equalization observer"
      | some a =>
        match findNode g a with
        | none => .error "LookupError: Could not find the equalization observer"
        | some n =>
          if n.op == FxOp.call_module && isWeightEqObsMod (ms n.target) then
            match stepBackArgs g (WEIGHT_ATTR_INDEX_DICT attr - 1) n with
            | .error e => .error e
            | .ok m => .ok (some m)
          else .error "AssertionError: expected a WeightEqualizationObserver"

/-- Does the string contain the given pattern as a substring? -/
def strContains (s pat : String) : Bool :=
  (s.splitOn pat).length != 1

/-- `scale_weight_functional`: rescale the functional operator's stored
weight attribute (and, per the source's user-scan, look for a bias
`get_attr` node among the operator's users).  Returns the updated model
attributes. -/
noncomputable def scale_weight_functional (op_node : FxNode) (g : FxGraph)
    (attrs : Attrs) (ms : Modules) (equalization_scale : QTensor)
    (next_equalization_scale : Option QTensor) : Except String Attrs :=
  match maybe_get_functional_weight_node g op_node ms "get_attr" with
  | .error e => .error e
  | .ok none => .ok attrs
  | .ok (some weight_node) =>
    if weight_node.op ≠ FxOp.get_attr then
      .error "AssertionError: expected a get_attr weight node"
    else
      match attrs weight_node.target with
      | some (.mat weight) =>
        let scaled_weight := mulMat weight equalization_scale.reciprocal
        match next_equalization_scale with
        | none => .ok (setAttr attrs weight_node.target (.mat scaled_weight))
        | some next_scale =>
          match viewCol next_scale weight.length with
          | .error e => .error e
          | .ok c =>
            let scaled_weight2 := mulMatCol scaled_weight c
            let attrs2 := setAttr attrs weight_node.target (.mat scaled_weight2)
            match (node_users g op_node.name).find?
                (fun n => n.op == FxOp.get_attr && strContains n.name "bias") with
            | none => .ok attrs2
            | some bias_node =>
              match attrs2 bias_node.target with
              | some (.ten (.vec b)) =>
                .ok (setAttr attrs2 bias_node.target
                  (.ten (.vec (mulBroadcast b next_scale))))
              | _ => .error "AttributeError: missing bias attribute"
      | _ => .error "AttributeError: missing weight attribute"

/-- `clear_weight_quant_obs_node`: reset the functional operator's weight
quantization observer to the uncomputed sentinel
(`min_val = inf`, `max_val = -inf`). -/
def clear_weight_quant_obs_node (op_node : FxNode) (g : FxGraph) (ms : Modules) :
    Except String Modules :=
  match maybe_get_functional_weight_node g op_node ms "quant_obs" with
  | .error e => .error e
  | .ok none => .ok ms
  | .ok (some wq) =>
    if isQuantObsMod (ms wq.target) then .ok (setModule ms wq.target .quantObsReset)
    else .error "AssertionError: expected an ObserverBase"

/-- Modelled from the spec: `maybe_get_next_module` (imported from `.utils`,
which is not among the sources) returns the first user of the node that is a
`call_module` whose module is of the requested kind. -/
def maybe_get_next_module (node : FxNode) (g : FxGraph) (ms : Modules)
    (isKind : Option FxModule → Bool) : Option FxNode :=
  (node_users g node.name).find?
    (fun u => u.op == FxOp.call_module && isKind (ms u.target))

/-- `maybe_get_next_input_eq_obs`: from a supported operator, follow its
output quantization observer and then a chained input equalization observer,
if both exist.  The source reads the observer module keyed by the node's
string form, i.e. its name. -/
def maybe_get_next_input_eq_obs (node : FxNode) (g : FxGraph) (ms : Modules) :
    Except String (Option InputEqualizationObserver) :=
  if ¬ node_supports_equalization node ms then
    .error "AssertionError: node does not support equalization"
  else
    match maybe_get_next_module node g ms isQuantObsMod with
    | none => .ok none
    | some obs_node =>
      match maybe_get_next_module obs_node g ms isInputEqObsMod with
      | none => .ok none
      | some eq_node =>
        match ms eq_node.name with
        | some (.inputEqObs obs) => .ok (some obs)
        | _ => .error "AssertionError: expected an InputEqualizationObserver"

/-- `maybe_get_next_equalization_scale`: the chained input equalization
observer's scale, when that observer exists. -/
def maybe_get_next_equalization_scale (node : FxNode) (g : FxGraph) (ms : Modules) :
    Except String (Option QTensor) :=
  match maybe_get_next_input_eq_obs node g ms with
  | .error e => .error e
  | .ok none => .ok none
  | .ok (some obs) => .ok (some obs.equalization_scale)

/-- Insert the given nodes immediately before the named node. -/
def insertBefore (g : FxGraph) (ref : String) (ns : List FxNode) : FxGraph :=
  match g with
  | [] => ns
  | m :: rest => if m.name = ref then ns ++ m :: rest else m :: insertBefore rest ref ns

/-- Rewrite the named node in place. -/
def updateNode (g : FxGraph) (nm : String) (f : FxNode → FxNode) : FxGraph :=
  g.map (fun m => if m.name = nm then f m else m)

/-- Modelled from the spec: `get_new_attr_name_with_prefix` (imported from
`.utils`, which is not among the sources) yields a fresh attribute name with
the given prefix; freshness is modelled with a counter carried in the pass
state. -/
def freshAttrName (pre : String) (k : Nat) : String :=
  pre ++ toString k

/-- The phase-2 traversal state: the mutating graph, the modules dictionary,
the model's attribute storage and the fresh-name counter. -/
structure ConvertState where
  graph : FxGraph
  ms : Modules
  attrs : Attrs
  counter : Nat

/-- The phase-1 result map, keyed by operator-node name. -/
abbrev WeightEqObsDict := String → Option WeightEqualizationObserver

/-- The body of `convert_eq_obs`'s traversal for one node; the boolean is
`true` exactly when the `return` statement inside the loop runs, ending the
whole pass early. -/
noncomputable def convertStep (dict : WeightEqObsDict) (node : FxNode)
    (st : ConvertState) : Except String (ConvertState × Bool) :=
  if node.op == FxOp.call_module && isInputEqObsMod (st.ms node.target) then
    match node.args with
    | [] => .error "IndexError: node.args is empty"
    | a :: _ =>
      match findNode st.graph a with
      | none => .error "KeyError: dangling argument node"
      | some inp_quant_obs_node =>
        match inp_quant_obs_node.args with
        | [] => .error "IndexError: inp_quant_obs_node.args is empty"
        | p :: _ =>
          match findNode st.graph p with
          | none => .error "KeyError: dangling argument node"
          | some prev_node =>
            match scale_input_observer node st.graph st.ms with
            | .error e => .error e
            | .ok ms2 =>
              if node_supports_equalization prev_node ms2 then
                .ok ({ st with
                  graph := remove_node st.graph node inp_quant_obs_node,
                  ms := ms2 }, false)
              else
                match st.ms node.target with
                | some (.inputEqObs obs) =>
                  let nm := freshAttrName (prev_node.name ++ "_equalization_scale")
                    st.counter
                  let attrs2 := setAttr st.attrs nm (.ten obs.equalization_scale)
                  let eq_scale_node : FxNode := ⟨nm, .get_attr, nm, []⟩
                  let mul_node : FxNode :=
                    ⟨nm ++ "_mul", .call_function, "torch.mul",
                     [prev_node.name, eq_scale_node.name]⟩
                  let g2 := insertBefore st.graph inp_quant_obs_node.name
                    [eq_scale_node, mul_node]
                  let g3 := updateNode g2 inp_quant_obs_node.name
                    (fun m => replace_input_with m prev_node.name mul_node.name)
                  .ok ({ graph := remove_node g3 node inp_quant_obs_node, ms := ms2,
                         attrs := attrs2, counter := st.counter + 1 }, false)
                | _ => .error "assert failed: expected an InputEqualizationObserver"
  else
    match dict node.name with
    | none => .ok (st, false)
    | some weight_eq_obs =>
      match maybe_get_next_equalization_scale node st.graph st.ms with
      | .error e => .error e
      | .ok maybe_next =>
        if node.op == FxOp.call_module then
          match scale_weight_node node st.ms weight_eq_obs.equalization_scale
              maybe_next with
          | .error e => .error e
          | .ok ms2 => .ok ({ st with ms := ms2 }, false)
        else if node.op == FxOp.call_function then
          match scale_weight_functional node st.graph st.attrs st.ms
              weight_eq_obs.equalization_scale maybe_next with
          | .error e => .error e
          | .ok attrs2 =>
            match maybe_get_functional_weight_node st.graph node st.ms "eq_obs" with
            | .error e => .error e
            | .ok none => .ok ({ st with attrs := attrs2 }, true)
            | .ok (some weight_eq_obs_node) =>
              if isWeightEqObsMod (st.ms weight_eq_obs_node.target) then
                match clear_weight_quant_obs_node node st.graph st.ms with
                | .error e => .error e
                | .ok ms2 =>
                  match weight_eq_obs_node.args with
                  | [] => .error "IndexError: weight_eq_obs_node.args is empty"
                  | p :: _ =>
                    match findNode st.graph p with
                    | none => .error "KeyError: dangling argument node"
                    | some prev =>
                      .ok ({ st with
                        graph := remove_node st.graph weight_eq_obs_node prev,
                        ms := ms2, attrs := attrs2 }, false)
              else .error "AssertionError: expected a WeightEqualizationObserver"
        else
          .error "ValueError: Expected operation node to be call_module or call_function"

/-- The traversal of `convert_eq_obs` over the (pre-mutation) node names;
nodes already erased are no longer visited, and the early `return` stops the
whole traversal. -/
noncomputable def convertLoop (dict : WeightEqObsDict) :
    List String → ConvertState → Except String ConvertState
  | [], st => .ok st
  | nm :: rest, st =>
    match findNode st.graph nm with
    | none => convertLoop dict rest st
    | some n =>
      match convertStep dict n st with
      | .error e => .error e
      | .ok (st2, true) => .ok st2
      | .ok (st2, false) => convertLoop dict rest st2

/-- `convert_eq_obs`: phase 2 of the pass. -/
noncomputable def convert_eq_obs (dict : WeightEqObsDict) (st : ConvertState) :
    Except String ConvertState :=
  convertLoop dict (st.graph.map (·.name)) st

/-- The phase-1 view of a weight equalization observer: the bound-module path
instantiates a fresh observer held by value, the functional path refers to a
named observer module. -/
inductive WeightObsRef where
  | inline (obs : WeightEqualizationObserver)
  | named (nm : String)

/-- The equalization scale a `WeightObsRef` holds, read through the current
modules. -/
def refScale (ms : Modules) : WeightObsRef → Option QTensor
  | .inline obs => some obs.equalization_scale
  | .named nm =>
    match ms nm with
    | some (.weightEqObs obs) => some obs.equalization_scale
    | _ => none

/-- `get_op_node_and_weight_eq_obs`: the first user of the input observer
node that is a supported linear operator, together with its weight
equalization observer — freshly instantiated from the equalization qconfig
map for a bound module, or the existing observer module for a functional
call. -/
def get_op_node_and_weight_eq_obs (input_eq_obs_node : FxNode) (g : FxGraph)
    (ms : Modules) (qcfg : String → Option Unit) :
    Except String (Option (FxNode × WeightObsRef)) :=
  match (node_users g input_eq_obs_node.name).find?
      (fun u => node_supports_equalization u ms) with
  | none => .error "AssertionError: no operator node follows the input observer"
  | some op_node =>
    if op_node.op == FxOp.call_module then
      match qcfg op_node.name with
      | none => .error "AssertionError: missing equalization qconfig"
      | some _ => .ok (some (op_node, .inline ⟨⟨[], []⟩, .vec []⟩))
    else if op_node.op == FxOp.call_function then
      match maybe_get_functional_weight_node g op_node ms "eq_obs" with
      | .error e => .error e
      | .ok none => .ok none
      | .ok (some weight_node) =>
        if isWeightEqObsMod (ms weight_node.target) then
          .ok (some (op_node, .named weight_node.target))
        else .error "AssertionError: expected a WeightEqualizationObserver"
    else .ok none

/-- The phase-1 state: the modules dictionary and the operator-name-keyed
map of weight equalization observers being built. -/
structure Phase1State where
  ms : Modules
  dict : String → Option WeightObsRef

/-- The body of `update_obs_for_equalization` for one node: at an input
equalization observer, locate the operator and weight observer, calibrate a
freshly created one with the module weight, compute the equalization scale,
install it on both observers and record the weight observer in the map. -/
noncomputable def phase1Step (g : FxGraph) (qcfg : String → Option Unit)
    (node : FxNode) (st : Phase1State) : Except String Phase1State :=
  if node.op == FxOp.call_module && isInputEqObsMod (st.ms node.target) then
    match get_op_node_and_weight_eq_obs node g st.ms qcfg with
    | .error e => .error e
    | .ok none => .ok st
    | .ok (some (op_node, ref)) =>
      match st.ms node.target with
      | some (.inputEqObs input_eq_obs) =>
        let calibrate : Except String WeightObsRef :=
          if op_node.op == FxOp.call_module then
            match ref with
            | .inline wobs =>
              match st.ms op_node.target with
              | some (.linear w _) =>
                match wobs.forward (.dim2 w) with
                | .error e => .error e
                | .ok wobs2 => .ok (.inline wobs2)
              | _ => .error "AttributeError: module has no attribute weight"
            | .named nm => .ok (.named nm)
          else .ok ref
        match calibrate with
        | .error e => .error e
        | .ok ref2 =>
          let wobs? : Except String WeightEqualizationObserver :=
            match ref2 with
            | .inline o => .ok o
            | .named nm =>
              match st.ms nm with
              | some (.weightEqObs o) => .ok o
              | _ => .error "AssertionError: expected a WeightEqualizationObserver"
          match wobs? with
          | .error e => .error e
          | .ok wobs =>
            match calculate_equalization_scale input_eq_obs wobs with
            | .error e => .error e
            | .ok scl =>
              let ms2 := setModule st.ms node.target
                (.inputEqObs { input_eq_obs with equalization_scale := scl })
              match ref2 with
              | .inline o =>
                .ok ⟨ms2, fun s => if s = op_node.name then
                  some (.inline { o with equalization_scale := scl }) else st.dict s⟩
              | .named nm =>
                .ok ⟨setModule ms2 nm
                    (.weightEqObs { wobs with equalization_scale := scl }),
                  fun s => if s = op_node.name then some (.named nm) else st.dict s⟩
      | _ => .error "assert failed: expected an InputEqualizationObserver"
  else .ok st

/-- The kind of a module entry, forgetting tensor contents.  Phase 1 only
changes observer contents, never kinds, and all its pattern matching is
kind-determined. -/
inductive ModKind where
  | absent
  | linear
  | inputEq
  | weightEq
  | quant
  | quantReset
  | other
deriving DecidableEq

/-- The kind of a `modules` entry. -/
def kindOf : Option FxModule → ModKind
  | none => .absent
  | some (.linear _ _) => .linear
  | some (.inputEqObs _) => .inputEq
  | some (.weightEqObs _) => .weightEq
  | some (.quantObs _ _) => .quant
  | some .quantObsReset => .quantReset
  | some (.other) => .other

/-- Two module dictionaries agree on every entry's kind. -/
def kindsEq (ms1 ms2 : Modules) : Prop :=
  ∀ t, kindOf (ms1 t) = kindOf (ms2 t)

/-- The weight-observer module name the phase-1 resolution of a site yields
on the functional path, if any. -/
def namedWeightTarget (g : FxGraph) (ms : Modules) (qcfg : String → Option Unit)
    (n : FxNode) : Option String :=
  match get_op_node_and_weight_eq_obs n g ms qcfg with
  | .ok (some (_, .named w)) => some w
  | _ => none

/-- The invariant phase 1 maintains: module kinds never change, and every
map entry under key `nm` refers back to a processed input-observer site `n`
whose resolution finds the operator named `nm` and, on the functional path,
exactly the entry's weight-observer module; the site's input observer holds
the same equalization scale as the entry's weight observer. -/
def phase1Inv (g : FxGraph) (ms0 : Modules) (qcfg : String → Option Unit)
    (st : Phase1State) (remaining : List FxNode) : Prop :=
  kindsEq ms0 st.ms ∧
  ∀ nm ref, st.dict nm = some ref →
    ∃ n, n ∈ g ∧ n ∉ remaining ∧ n.op = FxOp.call_module ∧
      kindOf (ms0 n.target) = ModKind.inputEq ∧
      (∃ op : FxNode, op.name = nm ∧
        ((∃ o0 o1, ref = .inline o1 ∧
           get_op_node_and_weight_eq_obs n g ms0 qcfg =
             .ok (some (op, .inline o0))) ∨
         (∃ w, ref = .named w ∧
           get_op_node_and_weight_eq_obs n g ms0 qcfg =
             .ok (some (op, .named w))))) ∧
      ∃ obs, st.ms n.target = some (.inputEqObs obs) ∧
        refScale st.ms ref = some obs.equalization_scale

/-- The traversal of `update_obs_for_equalization`. -/
noncomputable def phase1Loop (g : FxGraph) (qcfg : String → Option Unit) :
    List FxNode → Phase1State → Except String Phase1State
  | [], st => .ok st
  | n :: rest, st =>
    match phase1Step g qcfg n st with
    | .error e => .error e
    | .ok st2 => phase1Loop g qcfg rest st2

/-- `update_obs_for_equalization`: phase 1 of the pass. -/
noncomputable def update_obs_for_equalization (g : FxGraph) (ms : Modules)
    (qcfg : String → Option Unit) : Except String Phase1State :=
  phase1Loop g qcfg g ⟨ms, fun _ => none⟩

/-- Concrete fixture: the `get_attr` weight node of a functional linear
operator in canonical lowering. -/
def exWAttrF : FxNode := ⟨"w1", .get_attr, "w1", []⟩

/-- Concrete fixture: the weight quantization observer node. -/
def exWQNodeF : FxNode := ⟨"wq", .call_module, "wqmod", ["w1"]⟩

/-- Concrete fixture: the weight equalization observer node. -/
def exWENodeF : FxNode := ⟨"we", .call_module, "wemod", ["wq"]⟩

/-- Concrete fixture: the bias `get_attr` node (named like a bias, stored at
attribute `b1`), an argument of the operator. -/
def exBAttrF : FxNode := ⟨"linear1_bias", .get_attr, "b1", []⟩

/-- Concrete fixture: the functional linear operator node. -/
def exOpF : FxNode :=
  ⟨"op1", .call_function, "torch.nn.functional.linear", ["x", "we", "linear1_bias"]⟩

/-- Concrete fixture: the operator's output quantization observer node (the
operator's only user). -/
def exOutQF : FxNode := ⟨"oq", .call_module, "oqmod", ["op1"]⟩

/-- Concrete fixture graph for the functional operator in canonical
lowering. -/
def exGraphF : FxGraph :=
  [⟨"x", .placeholder, "x", []⟩, exWAttrF, exWQNodeF, exWENodeF, exBAttrF, exOpF,
   exOutQF]

/-- Concrete fixture modules for the functional operator fixture. -/
def exModulesF : Modules := fun s =>
  if s = "wqmod" then some (.quantObs 0 1)
  else if s = "wemod" then some (.weightEqObs ⟨⟨[0], [1]⟩, .vec []⟩)
  else if s = "oqmod" then some (.quantObs 0 1)
  else none

/-- Concrete fixture attributes: the functional weight `[[4]]` and bias
`[5]`. -/
def exAttrsF : Attrs := fun s =>
  if s = "w1" then some (.mat [[4]])
  else if s = "b1" then some (.ten (.vec [5]))
  else none

/-- Concrete fixture modules extending `exModulesF` with a bound linear
module. -/
def exModulesC2W : Modules := fun s =>
  if s = "linmod" then some (.linear [[4]] (some [5]))
  else exModulesF s

/-- Concrete fixture: a functional operator whose weight argument slot holds
the weight quantization observer node directly — the canonical lowering is
violated, so the weight equalization probe cannot be found. -/
def exOp8 : FxNode :=
  ⟨"op8", .call_function, "torch.nn.functional.linear", ["x8", "wq8"]⟩

/-- Concrete fixture: the weight quantization observer node of `exOp8`. -/
def exWQ8 : FxNode := ⟨"wq8", .call_module, "wq8mod", ["w8"]⟩

/-- Concrete fixture graph for the violated canonical lowering. -/
def exGraph8 : FxGraph :=
  [⟨"x8", .placeholder, "x8", []⟩, ⟨"w8", .get_attr, "w8", []⟩, exWQ8, exOp8]

/-- Concrete fixture modules for `exGraph8`. -/
def exModules8 : Modules := fun s =>
  if s = "wq8mod" then some (.quantObs 0 1) else none

/-- Concrete fixture attributes for `exGraph8`. -/
def exAttrs8 : Attrs := fun s =>
  if s = "w8" then some (.mat [[1]]) else none

/-- Concrete fixture phase-1 map marking `op8` for rewriting. -/
def exDict8 : WeightEqObsDict := fun s =>
  if s = "op8" then some ⟨⟨[0], [1]⟩, .vec [1]⟩ else none

/-- Concrete fixture: second-layer input equalization probe between two
chained linear layers. -/
def exE2Node3 : FxNode := ⟨"e2", .call_module, "e2mod", ["q2"]⟩

/-- Concrete fixture: the output quantization observer of the first linear
layer. -/
def exQ2Node3 : FxNode := ⟨"q2", .call_module, "q2mod", ["lin1"]⟩

/-- Concrete fixture: the first linear layer. -/
def exLin1Node3 : FxNode := ⟨"lin1", .call_module, "lin1mod", ["e1"]⟩

/-- Concrete fixture graph: two chained equalized linear layers. -/
def exGraph3 : FxGraph :=
  [⟨"x", .placeholder, "x", []⟩, ⟨"q1", .call_module, "q1mod", ["x"]⟩,
   ⟨"e1", .call_module, "e1mod", ["q1"]⟩, exLin1Node3, exQ2Node3, exE2Node3,
   ⟨"lin2", .call_module, "lin2mod", ["e2"]⟩]

/-- Concrete fixture modules for the chained-linear graph. -/
def exModules3 : Modules := fun s =>
  if s = "q1mod" then some (.quantObs 0 1)
  else if s = "e1mod" then some (.inputEqObs ⟨⟨[0], [1]⟩, .vec [1]⟩)
  else if s = "lin1mod" then some (.linear [[1]] (some [0]))
  else if s = "q2mod" then some (.quantObs 0 1)
  else if s = "e2mod" then some (.inputEqObs ⟨⟨[1], [3]⟩, .vec [2]⟩)
  else if s = "lin2mod" then some (.linear [[1]] (some [0]))
  else none

/-- Concrete fixture: the input equalization observer node of a single
bound-linear site. -/
def exE9 : FxNode := ⟨"e9", .call_module, "e9mod", ["q9"]⟩

/-- Concrete fixture: the bound linear operator node. -/
def exLin9 : FxNode := ⟨"lin9", .call_module, "lin9mod", ["e9"]⟩

/-- Concrete fixture graph for one bound-linear equalization site. -/
def exGraph9 : FxGraph :=
  [⟨"x9", .placeholder, "x9", []⟩, ⟨"q9", .call_module, "q9mod", ["x9"]⟩,
   exE9, exLin9]

/-- Concrete fixture modules: the input observer's recorded range is
inverted (`min = 1 > max = 0`), so the computed scale is the identity
fallback. -/
def exModules9 : Modules := fun s =>
  if s = "q9mod" then some (.quantObs 0 1)
  else if s = "e9mod" then some (.inputEqObs ⟨⟨[1], [0]⟩, .vec []⟩)
  else if s = "lin9mod" then some (.linear [[2]] none)
  else none

/-- Concrete fixture equalization qconfig map. -/
def exQcfg9 : String → Option Unit := fun s =>
  if s = "lin9" then some () else none

/-- The expected phase-1 result on the fixture. -/
def exFinal9 : Phase1State :=
  ⟨setModule exModules9 "e9mod" (.inputEqObs ⟨⟨[1], [0]⟩, .scalar 1⟩),
   fun s => if s = "lin9" then some (.inline ⟨⟨[2], [2]⟩, .scalar 1⟩) else none⟩

/-- Concrete fixture: an input-equalization-probe node fed by a quantization
observer node. -/
def exQNode6 : FxNode := ⟨"q", .call_module, "qmod", ["x"]⟩

/-- Concrete fixture: the input-equalization-probe node. -/
def exNode6 : FxNode := ⟨"e", .call_module, "emod", ["q"]⟩

/-- Concrete fixture graph `x -> q -> e`. -/
def exGraph6 : FxGraph := [⟨"x", .placeholder, "x", []⟩, exQNode6, exNode6]

/-- Concrete fixture modules with an unfinalized equalization scale and a
quantization observer currently holding `min_val = 5`, `max_val = 7`. -/
def exModules6 : Modules := fun s =>
  if s = "emod" then some (.inputEqObs ⟨⟨[1], [2]⟩, .vec []⟩)
  else if s = "qmod" then some (.quantObs 5 7)
  else none

/-- Concrete fixture modules with the finalized equalization scale `[2]`. -/
def exModules6w : Modules := fun s =>
  if s = "emod" then some (.inputEqObs ⟨⟨[1], [2]⟩, .vec [2]⟩)
  else if s = "qmod" then some (.quantObs 5 7)
  else none

theorem zipWith_getD (f : ℝ → ℝ → ℝ) (a : List ℝ) :
    ∀ (b : List ℝ) (j : Nat), j < a.length → j < b.length →
      (List.zipWith f a b).getD j 0 = f (a.getD j 0) (b.getD j 0) := by
  induction a with
  | nil => intro b j hja _; simp at hja
  | cons x xs ih =>
    intro b j hja hjb
    cases b with
    | nil => simp at hjb
    | cons y ys =>
      cases j with
      | zero => simp
      | succ k =>
        simp only [List.zipWith_cons_cons, List.getD_cons_succ]
        exact ih ys k (by simpa using hja) (by simpa using hjb)

theorem eqScaleVec_length (mi ma mw maw : List ℝ) (n : Nat)
    (h1 : mi.length = n) (h2 : ma.length = n) (h3 : mw.length = n)
    (h4 : maw.length = n) : (eqScaleVec mi ma mw maw).length = n := by
  simp [eqScaleVec, h1, h2, h3, h4]

theorem eqScaleVec_getD (mi ma mw maw : List ℝ) (n j : Nat)
    (h1 : mi.length = n) (h2 : ma.length = n) (h3 : mw.length = n)
    (h4 : maw.length = n) (hj : j < n) :
    (eqScaleVec mi ma mw maw).getD j 0 =
      Real.sqrt ((maw.getD j 0 - mw.getD j 0) / (ma.getD j 0 - mi.getD j 0)) := by
  unfold eqScaleVec
  rw [zipWith_getD _ _ _ _ (by simp [h3, h4]; omega) (by simp [h1, h2]; omega)]
  rw [zipWith_getD _ _ _ _ (by omega) (by omega)]
  rw [zipWith_getD _ _ _ _ (by omega) (by omega)]

theorem getD_map_lt {α β : Type _} (f : α → β) (l : List α) (d : α) (d' : β) :
    ∀ i, i < l.length → (l.map f).getD i d' = f (l.getD i d) := by
  induction l with
  | nil => intro i h; simp at h
  | cons x xs ih =>
    intro i h
    cases i with
    | zero => simp
    | succ k =>
      simp only [List.map_cons, List.getD_cons_succ]
      exact ih k (by simpa using h)

theorem getD_zipWith_lt {α β γ : Type _} (f : α → β → γ) (a : List α)
    (da : α) (db : β) (dc : γ) :
    ∀ (b : List β) (j : Nat), j < a.length → j < b.length →
      (List.zipWith f a b).getD j dc = f (a.getD j da) (b.getD j db) := by
  induction a with
  | nil => intro b j hja _; simp at hja
  | cons x xs ih =>
    intro b j hja hjb
    cases b with
    | nil => simp at hjb
    | cons y ys =>
      cases j with
      | zero => simp
      | succ k =>
        simp only [List.zipWith_cons_cons, List.getD_cons_succ]
        exact ih ys k (by simpa using hja) (by simpa using hjb)

theorem mulMat_vec_length (w : List (List ℝ)) (v : List ℝ) :
    (mulMat w (.vec v)).length = w.length := by
  simp [mulMat]

theorem mulMat_vec_getD (w : List (List ℝ)) (v : List ℝ) (i : Nat)
    (hi : i < w.length) :
    (mulMat w (.vec v)).getD i [] = List.zipWith (· * ·) (w.getD i []) v := by
  unfold mulMat
  exact getD_map_lt _ w [] [] i hi

theorem mulMatCol_entry (W : List (List ℝ)) (c : List ℝ) (i j : Nat)
    (hi1 : i < W.length) (hi2 : i < c.length) (hj : j < (W.getD i []).length) :
    ((mulMatCol W c).getD i []).getD j 0 =
      (W.getD i []).getD j 0 * c.getD i 0 := by
  unfold mulMatCol
  rw [getD_zipWith_lt _ W [] 0 [] c i hi1 hi2]
  exact getD_map_lt _ _ 0 0 j hj

theorem mulMat_recip_entry (w : List (List ℝ)) (s : List ℝ) (i j : Nat)
    (hi : i < w.length) (hrow : (w.getD i []).length = s.length)
    (hj : j < s.length) :
    ((mulMat w (QTensor.reciprocal (.vec s))).getD i []).getD j 0 =
      (w.getD i []).getD j 0 * (s.getD j 0)⁻¹ := by
  show ((mulMat w (.vec (s.map (·⁻¹)))).getD i []).getD j 0 = _
  rw [mulMat_vec_getD w _ i hi,
    getD_zipWith_lt _ _ 0 0 0 _ j (by omega) (by simpa using hj),
    getD_map_lt _ s 0 0 j hj]

theorem scaled_weight_entry (w : List (List ℝ)) (s t : List ℝ) (i j : Nat)
    (hi : i < w.length) (hit : i < t.length)
    (hrow : (w.getD i []).length = s.length) (hj : j < s.length) :
    ((mulMatCol (mulMat w (QTensor.reciprocal (.vec s))) t).getD i []).getD j 0 =
      (w.getD i []).getD j 0 * (s.getD j 0)⁻¹ * t.getD i 0 := by
  rw [mulMatCol_entry _ t i j
    (by simpa [mulMat_vec_length, QTensor.reciprocal] using hi) hit ?hjlen]
  · rw [mulMat_recip_entry w s i j hi hrow hj]
  case hjlen =>
    show j < ((mulMat w (.vec (s.map (·⁻¹)))).getD i []).length
    rw [mulMat_vec_getD w _ i hi]
    simp only [List.length_zipWith, List.length_map]
    omega

theorem setModule_self (ms : Modules) (k : String) (v : FxModule) :
    setModule ms k v k = some v := by
  simp [setModule]

theorem setModule_ne (ms : Modules) (k k' : String) (v : FxModule) (h : k' ≠ k) :
    setModule ms k v k' = ms k' := by
  simp [setModule, h]

theorem setAttr_self (ats : Attrs) (k : String) (v : TVal) :
    setAttr ats k v k = some v := by
  simp [setAttr]

theorem setAttr_ne (ats : Attrs) (k k' : String) (v : TVal) (h : k' ≠ k) :
    setAttr ats k v k' = ats k' := by
  simp [setAttr, h]

theorem calc_scale_of_valid (mi ma mw maw : List ℝ) (es es' : QTensor)
    (hvi : check_min_max_valid mi ma) (hvw : check_min_max_valid mw maw)
    (hlen : mi.length = mw.length) :
    calculate_equalization_scale ⟨⟨mi, ma⟩, es⟩ ⟨⟨mw, maw⟩, es'⟩ =
      .ok (.vec (eqScaleVec mi ma mw maw)) := by
  unfold calculate_equalization_scale
  simp only [InputEqualizationObserver.get_input_minmax,
    WeightEqualizationObserver.get_weight_col_minmax]
  rw [if_neg (not_not_intro ⟨hvi, hvw⟩), if_neg (not_not_intro hlen)]

theorem check_valid_singleton (a b : ℝ) (h : a ≤ b) : check_min_max_valid [a] [b] := by
  refine ⟨by simp, by simp, ?_⟩
  intro p hp
  have hp' : p = (a, b) := by simpa [List.zip] using hp
  simpa [hp'] using h

/-- C4: invalid min/max statistics on either side make
`calculate_equalization_scale` return the scalar identity `torch.tensor(1)`
without raising. -/
theorem C4_invalid_stats_identity_fallback (mi ma mw maw : List ℝ) (es es' : QTensor)
    (h : ¬ check_min_max_valid mi ma ∨ ¬ check_min_max_valid mw maw) :
    calculate_equalization_scale ⟨⟨mi, ma⟩, es⟩ ⟨⟨mw, maw⟩, es'⟩ = .ok (.scalar 1) := by
  unfold calculate_equalization_scale
  simp only [InputEqualizationObserver.get_input_minmax,
    WeightEqualizationObserver.get_weight_col_minmax]
  rw [if_pos (fun hc => h.elim (fun hn => hn hc.1) (fun hn => hn hc.2))]

/-- Witness for C4 at the concrete inverted pair `min = [1] > max = [0]`. -/
theorem C4_invalid_stats_identity_fallback_witness :
    (¬ check_min_max_valid [(1 : ℝ)] [0] ∨ ¬ check_min_max_valid [(0 : ℝ)] [0]) ∧
    calculate_equalization_scale ⟨⟨[1], [0]⟩, .vec []⟩ ⟨⟨[0], [0]⟩, .vec []⟩ =
      .ok (.scalar 1) := by
  have h : ¬ check_min_max_valid [(1 : ℝ)] [0] := by
    intro hc
    have h10 := hc.2.2 (1, 0) (by simp [List.zip])
    norm_num at h10
  exact ⟨Or.inl h,
    C4_invalid_stats_identity_fallback [1] [0] [0] [0] (.vec []) (.vec []) (Or.inl h)⟩

/-- C5: with valid statistics on both sides but mismatched channel counts,
`calculate_equalization_scale` raises a `ValueError` instead of returning. -/
theorem C5_shape_mismatch_raises (mi ma mw maw : List ℝ) (es es' : QTensor)
    (hvi : check_min_max_valid mi ma) (hvw : check_min_max_valid mw maw)
    (hne : mi.length ≠ mw.length) :
    calculate_equalization_scale ⟨⟨mi, ma⟩, es⟩ ⟨⟨mw, maw⟩, es'⟩ =
      .error "ValueError: Input and Weight must have the same column dimension." := by
  unfold calculate_equalization_scale
  simp only [InputEqualizationObserver.get_input_minmax,
    WeightEqualizationObserver.get_weight_col_minmax]
  rw [if_neg (not_not_intro ⟨hvi, hvw⟩), if_pos hne]

/-- Witness for C5: one input channel versus two weight channels. -/
theorem C5_shape_mismatch_raises_witness :
    check_min_max_valid [(0 : ℝ)] [1] ∧ check_min_max_valid [(0 : ℝ), 0] [1, 1] ∧
    calculate_equalization_scale ⟨⟨[0], [1]⟩, .vec []⟩ ⟨⟨[0, 0], [1, 1]⟩, .vec []⟩ =
      .error "ValueError: Input and Weight must have the same column dimension." := by
  have hvi : check_min_max_valid [(0 : ℝ)] [1] := check_valid_singleton 0 1 (by norm_num)
  have hvw : check_min_max_valid [(0 : ℝ), 0] [1, 1] := by
    refine ⟨by simp, by simp, ?_⟩
    intro p hp
    simp [List.zip] at hp
    subst hp
    norm_num
  exact ⟨hvi, hvw,
    C5_shape_mismatch_raises [0] [1] [0, 0] [1, 1] (.vec []) (.vec []) hvi hvw (by simp)⟩

/-- C1 counterexample: with valid, equal-length statistics and a
non-degenerate input range (`0 < 2`), a degenerate weight column
(`min_w = max_w = 0`) makes `calculate_equalization_scale` return the vector
`[sqrt 0] = [0]`, which is not strictly positive — refuting the claim as
stated. -/
theorem C1_strict_positivity_counterexample :
    check_min_max_valid [(0 : ℝ)] [2] ∧ check_min_max_valid [(0 : ℝ)] [0] ∧
    (0 : ℝ) < 2 ∧
    calculate_equalization_scale ⟨⟨[0], [2]⟩, .vec []⟩ ⟨⟨[0], [0]⟩, .vec []⟩ =
      .ok (.vec [0]) ∧ ¬ (0 : ℝ) < 0 := by
  have hvi : check_min_max_valid [(0 : ℝ)] [2] := check_valid_singleton 0 2 (by norm_num)
  have hvw : check_min_max_valid [(0 : ℝ)] [0] := check_valid_singleton 0 0 le_rfl
  refine ⟨hvi, hvw, by norm_num, ?_, by norm_num⟩
  rw [calc_scale_of_valid [0] [2] [0] [0] (.vec []) (.vec []) hvi hvw rfl]
  have hv : eqScaleVec [(0 : ℝ)] [2] [0] [0] = [0] := by
    simp [eqScaleVec]
  rw [hv]

/-- C1 (amended): for valid, equal-length statistics in which both the input
ranges and the weight column ranges are non-degenerate
(`min < max` channelwise on both sides), `calculate_equalization_scale`
returns the vector `scale[j] = sqrt((max_w[j]-min_w[j]) / (max_in[j]-min_in[j]))`,
every entry is strictly positive, and the balancing identity
`(max_w[j]-min_w[j]) / scale[j] = (max_in[j]-min_in[j]) * scale[j]` holds. -/
theorem C1_scale_formula_and_balance (mi ma mw maw : List ℝ) (es es' : QTensor) (n : Nat)
    (h1 : mi.length = n) (h2 : ma.length = n) (h3 : mw.length = n) (h4 : maw.length = n)
    (hvi : check_min_max_valid mi ma) (hvw : check_min_max_valid mw maw)
    (hdi : ∀ j, j < n → mi.getD j 0 < ma.getD j 0)
    (hdw : ∀ j, j < n → mw.getD j 0 < maw.getD j 0) :
    ∃ s : List ℝ,
      calculate_equalization_scale ⟨⟨mi, ma⟩, es⟩ ⟨⟨mw, maw⟩, es'⟩ = .ok (.vec s) ∧
      s.length = n ∧
      (∀ j, j < n → s.getD j 0 =
        Real.sqrt ((maw.getD j 0 - mw.getD j 0) / (ma.getD j 0 - mi.getD j 0))) ∧
      (∀ j, j < n → 0 < s.getD j 0) ∧
      (∀ j, j < n →
        (maw.getD j 0 - mw.getD j 0) / s.getD j 0 =
          (ma.getD j 0 - mi.getD j 0) * s.getD j 0) := by
  refine ⟨eqScaleVec mi ma mw maw,
    calc_scale_of_valid mi ma mw maw es es' hvi hvw (by omega),
    eqScaleVec_length mi ma mw maw n h1 h2 h3 h4, ?_, ?_, ?_⟩
  · intro j hj
    exact eqScaleVec_getD mi ma mw maw n j h1 h2 h3 h4 hj
  · intro j hj
    rw [eqScaleVec_getD mi ma mw maw n j h1 h2 h3 h4 hj]
    exact Real.sqrt_pos.mpr
      (div_pos (sub_pos.mpr (hdw j hj)) (sub_pos.mpr (hdi j hj)))
  · intro j hj
    rw [eqScaleVec_getD mi ma mw maw n j h1 h2 h3 h4 hj]
    have hdi' : (0 : ℝ) < ma.getD j 0 - mi.getD j 0 := sub_pos.mpr (hdi j hj)
    have hdw' : (0 : ℝ) < maw.getD j 0 - mw.getD j 0 := sub_pos.mpr (hdw j hj)
    have hs : Real.sqrt ((maw.getD j 0 - mw.getD j 0) / (ma.getD j 0 - mi.getD j 0)) *
        Real.sqrt ((maw.getD j 0 - mw.getD j 0) / (ma.getD j 0 - mi.getD j 0)) =
        (maw.getD j 0 - mw.getD j 0) / (ma.getD j 0 - mi.getD j 0) :=
      Real.mul_self_sqrt (le_of_lt (div_pos hdw' hdi'))
    have hspos : (0 : ℝ) <
        Real.sqrt ((maw.getD j 0 - mw.getD j 0) / (ma.getD j 0 - mi.getD j 0)) :=
      Real.sqrt_pos.mpr (div_pos hdw' hdi')
    rw [div_eq_iff (ne_of_gt hspos), mul_assoc, hs, mul_comm,
      div_mul_cancel₀ _ (ne_of_gt hdi')]

/-- Witness for the amended C1 at input range `[0,2]` and weight column range
`[0,8]`. -/
theorem C1_scale_formula_and_balance_witness :
    ∃ s : List ℝ,
      calculate_equalization_scale ⟨⟨[0], [2]⟩, .vec []⟩ ⟨⟨[0], [8]⟩, .vec []⟩ =
        .ok (.vec s) ∧
      s.length = 1 ∧
      (∀ j, j < 1 → s.getD j 0 =
        Real.sqrt (([(8 : ℝ)].getD j 0 - [(0 : ℝ)].getD j 0) /
          ([(2 : ℝ)].getD j 0 - [(0 : ℝ)].getD j 0))) ∧
      (∀ j, j < 1 → 0 < s.getD j 0) ∧
      (∀ j, j < 1 →
        ([(8 : ℝ)].getD j 0 - [(0 : ℝ)].getD j 0) / s.getD j 0 =
          ([(2 : ℝ)].getD j 0 - [(0 : ℝ)].getD j 0) * s.getD j 0) :=
  C1_scale_formula_and_balance [0] [2] [0] [8] (.vec []) (.vec []) 1
    rfl rfl rfl rfl
    (check_valid_singleton 0 2 (by norm_num))
    (check_valid_singleton 0 8 (by norm_num))
    (by intro j hj; interval_cases j; norm_num)
    (by intro j hj; interval_cases j; norm_num)

/-- C2 (amended): the phase-2 weight rewrite sets
`new_weight[i][j] = weight[i][j] * (1/scale[j])`, broadcasting the scale
across the input-feature axis, and with a next-layer scale additionally
multiplies row `i` by `next_scale[i]`; the bound-module path also multiplies
the (present) bias elementwise by `next_scale`, while the functional path
leaves every attribute other than the weight slot — in particular the stored
bias — untouched, because its bias lookup scans the operator's users and a
`get_attr` node (having no inputs) is never a user. -/
theorem C2_weight_rewrite
    (node : FxNode) (ms : Modules) (w : List (List ℝ)) (bv : List ℝ) (s t : List ℝ)
    (g : FxGraph) (attrs : Attrs) (op we wq wn : FxNode)
    (a0 weName wqName wName : String) (restArgs wqRest wRest : List String)
    (wf : List (List ℝ))
    (hms : ms node.target = some (.linear w (some bv)))
    (hrect : ∀ i, i < w.length → (w.getD i []).length = s.length)
    (ht : t.length = w.length) (hb : bv.length = w.length)
    (htg : op.target = "torch.nn.functional.linear")
    (hop : op.op = FxOp.call_function)
    (hargs : op.args = a0 :: weName :: restArgs)
    (hfind_we : findNode g weName = some we)
    (hwe_op : we.op = FxOp.call_module)
    (hwe_mod : isWeightEqObsMod (ms we.target) = true)
    (hwe_args : we.args = wqName :: wqRest)
    (hfind_wq : findNode g wqName = some wq)
    (hwq_args : wq.args = wName :: wRest)
    (hfind_wn : findNode g wName = some wn)
    (hwn_op : wn.op = FxOp.get_attr)
    (hattr : attrs wn.target = some (.mat wf))
    (hga : ∀ m ∈ g, m.op = FxOp.get_attr → m.args = [])
    (hrectf : ∀ i, i < wf.length → (wf.getD i []).length = s.length)
    (htf : t.length = wf.length) :
    (∃ ms₁ W₁, scale_weight_node node ms (.vec s) none = .ok ms₁ ∧
      ms₁ node.target = some (.linear W₁ (some bv)) ∧
      (∀ k, k ≠ node.target → ms₁ k = ms k) ∧
      W₁.length = w.length ∧
      (∀ i, i < w.length → ∀ j, j < s.length →
        (W₁.getD i []).getD j 0 = (w.getD i []).getD j 0 * (s.getD j 0)⁻¹)) ∧
    (∃ ms₂ W₂ b₂, scale_weight_node node ms (.vec s) (some (.vec t)) = .ok ms₂ ∧
      ms₂ node.target = some (.linear W₂ (some b₂)) ∧
      (∀ k, k ≠ node.target → ms₂ k = ms k) ∧
      (∀ i, i < w.length → ∀ j, j < s.length →
        (W₂.getD i []).getD j 0 =
          (w.getD i []).getD j 0 * (s.getD j 0)⁻¹ * t.getD i 0) ∧
      (∀ i, i < w.length → b₂.getD i 0 = bv.getD i 0 * t.getD i 0)) ∧
    (∃ attrs₃ W₃, scale_weight_functional op g attrs ms (.vec s) (some (.vec t)) =
        .ok attrs₃ ∧
      attrs₃ wn.target = some (.mat W₃) ∧
      (∀ k, k ≠ wn.target → attrs₃ k = attrs k) ∧
      (∀ i, i < wf.length → ∀ j, j < s.length →
        (W₃.getD i []).getD j 0 =
          (wf.getD i []).getD j 0 * (s.getD j 0)⁻¹ * t.getD i 0)) := by
  refine ⟨?_, ?_, ?_⟩
  · -- (1) module path, no next scale
    refine ⟨setModule ms node.target
        (.linear (mulMat w (QTensor.reciprocal (.vec s))) (some bv)),
      mulMat w (QTensor.reciprocal (.vec s)), ?_, setModule_self _ _ _, ?_, ?_, ?_⟩
    · simp only [scale_weight_node, hms]
    · intro k hk; exact setModule_ne _ _ _ _ hk
    · simpa [QTensor.reciprocal] using mulMat_vec_length w (s.map (·⁻¹))
    · intro i hi j hj
      exact mulMat_recip_entry w s i j hi (hrect i hi) hj
  · -- (2) module path with next scale
    have hview : viewCol (.vec t) w.length = .ok t := by simp [viewCol, ht]
    refine ⟨setModule ms node.target
        (.linear (mulMatCol (mulMat w (QTensor.reciprocal (.vec s))) t)
          (some (mulBroadcast bv (.vec t)))),
      mulMatCol (mulMat w (QTensor.reciprocal (.vec s))) t,
      mulBroadcast bv (.vec t), ?_, setModule_self _ _ _, ?_, ?_, ?_⟩
    · simp only [scale_weight_node, hms, hview]
    · intro k hk; exact setModule_ne _ _ _ _ hk
    · intro i hi j hj
      exact scaled_weight_entry w s t i j hi (by omega) (hrect i hi) hj
    · intro i hi
      show (List.zipWith (· * ·) bv t).getD i 0 = _
      exact getD_zipWith_lt _ bv 0 0 0 t i (by omega) (by omega)
  · -- (3) functional path with next scale
    have hres : maybe_get_functional_weight_node g op ms "get_attr" = .ok (some wn) := by
      simp only [maybe_get_functional_weight_node, htg, WEIGHT_INDEX_DICT, hop, hargs,
        WEIGHT_ATTR_INDEX_DICT]
      simp only [pickWeightArg, List.contains_cons]
      simp [hwe_op, hwe_mod, stepBackArgs, hwe_args, hfind_we, hfind_wq, hwq_args,
        hfind_wn]
    have hview : viewCol (.vec t) wf.length = .ok t := by simp [viewCol, htf]
    have husers : (node_users g op.name).find?
        (fun n => n.op == FxOp.get_attr && strContains n.name "bias") = none := by
      rw [List.find?_eq_none]
      intro x hx
      have hxg : x ∈ g ∧ x.args.contains op.name := by
        simpa [node_users, List.mem_filter] using hx
      have hne : x.args ≠ [] := by
        intro h0
        rw [h0] at hxg
        simp [List.contains] at hxg
      have hxop : x.op ≠ FxOp.get_attr := fun hop0 => hne (hga x hxg.1 hop0)
      simp [hxop]
    refine ⟨setAttr attrs wn.target
        (.mat (mulMatCol (mulMat wf (QTensor.reciprocal (.vec s))) t)),
      mulMatCol (mulMat wf (QTensor.reciprocal (.vec s))) t, ?_,
      setAttr_self _ _ _, ?_, ?_⟩
    · simp only [scale_weight_functional, hres, hwn_op, hattr, hview, husers]
      simp [hwn_op]
    · intro k hk; exact setAttr_ne _ _ _ _ hk
    · intro i hi j hj
      exact scaled_weight_entry wf s t i j hi (by omega) (hrectf i hi) hj

/-- C10: both observers' `forward` raise a `ValueError` on any tensor whose
dimension is not exactly 2, and record a 2-dim batch into the wrapped
per-channel collector. -/
theorem C10_forward_2d_only (iobs : InputEqualizationObserver)
    (wobs : WeightEqualizationObserver) (x : PTensor) :
    (x.ndim ≠ 2 →
      iobs.forward x =
        .error "ValueError: InputEqualizationObserver only supports Linear layers" ∧
      wobs.forward x =
        .error "ValueError: WeightEqualizationObserver only supports Linear layers") ∧
    (∀ m, x = .dim2 m →
      iobs.forward x = .ok { iobs with input_obs := record iobs.input_obs m } ∧
      wobs.forward x = .ok { wobs with weight_col_obs := record wobs.weight_col_obs m }) := by
  constructor
  · intro h
    cases x with
    | dim1 v => exact ⟨rfl, rfl⟩
    | dim2 m => simp [PTensor.ndim] at h
    | dim3 c => exact ⟨rfl, rfl⟩
  · rintro m rfl
    exact ⟨rfl, rfl⟩

/-- Witness for C10: a 1-dim tensor is rejected by both observers, and a
concrete 2-dim batch is recorded columnwise. -/
theorem C10_forward_2d_only_witness :
    PTensor.ndim (.dim1 [0]) ≠ 2 ∧
    InputEqualizationObserver.forward ⟨⟨[], []⟩, .vec []⟩ (.dim1 [0]) =
      .error "ValueError: InputEqualizationObserver only supports Linear layers" ∧
    WeightEqualizationObserver.forward ⟨⟨[], []⟩, .vec []⟩ (.dim1 [0]) =
      .error "ValueError: WeightEqualizationObserver only supports Linear layers" ∧
    InputEqualizationObserver.forward ⟨⟨[], []⟩, .vec []⟩ (.dim2 [[1, 2], [3, 4]]) =
      .ok ⟨⟨[1, 2], [3, 4]⟩, .vec []⟩ := by
  have hnd : PTensor.ndim (.dim1 [0]) ≠ 2 := by simp [PTensor.ndim]
  have h1 := (C10_forward_2d_only ⟨⟨[], []⟩, .vec []⟩ ⟨⟨[], []⟩, .vec []⟩
    (.dim1 [0])).1 hnd
  have h2 := (C10_forward_2d_only ⟨⟨[], []⟩, .vec []⟩ ⟨⟨[], []⟩, .vec []⟩
    (.dim2 [[1, 2], [3, 4]])).2 [[1, 2], [3, 4]] rfl
  refine ⟨hnd, h1.1, h1.2, ?_⟩
  rw [h2.1]
  have hrec : record ⟨[], []⟩ [[1, 2], [3, 4]] =
      (⟨[1, 2], [3, 4]⟩ : PerChannelMinMaxObserver) := by
    simp [record, colReduce]
    norm_num [min_def, max_def]
  rw [hrec]

/-- C6 (amended): at an input-equalization-probe node whose predecessor's
quantization observer exists, an unfinalized (still empty) equalization scale
makes `calculate_scaled_minmax` warn and yield the default zero range, which
`scale_input_observer` then writes into the quantization observer (so its
recorded min/max become `0`, not untouched); a finalized vector scale yields
the channelwise extrema `min_j (min_in[j]*scale[j])` and
`max_j (max_in[j]*scale[j])`, which are written likewise. -/
theorem C6_scale_input_observer (g : FxGraph) (ms : Modules) (node qn : FxNode)
    (obs : InputEqualizationObserver) (m0 M0 : ℝ) (a : String) (rest : List String)
    (hmod : ms node.target = some (.inputEqObs obs))
    (hargs : node.args = a :: rest)
    (hfind : findNode g a = some qn)
    (hq : ms qn.target = some (.quantObs m0 M0)) :
    (obs.equalization_scale = .vec [] →
      calculate_scaled_minmax obs = (true, 0, 0) ∧
      scale_input_observer node g ms = .ok (setModule ms qn.target (.quantObs 0 0))) ∧
    (∀ s, obs.equalization_scale = .vec s → s ≠ [] →
      calculate_scaled_minmax obs =
        (false, torchMin (List.zipWith (· * ·) obs.input_obs.min_vals s),
         torchMax (List.zipWith (· * ·) obs.input_obs.max_vals s)) ∧
      scale_input_observer node g ms = .ok (setModule ms qn.target
        (.quantObs (torchMin (List.zipWith (· * ·) obs.input_obs.min_vals s))
          (torchMax (List.zipWith (· * ·) obs.input_obs.max_vals s))))) := by
  constructor
  · intro hes
    have hcalc : calculate_scaled_minmax obs = (true, 0, 0) := by
      simp [calculate_scaled_minmax, hes, QTensor.nelement]
    refine ⟨hcalc, ?_⟩
    simp only [scale_input_observer, hmod, hargs, hfind, hq, hcalc]
  · intro s hes hne
    have hcalc : calculate_scaled_minmax obs =
        (false, torchMin (List.zipWith (· * ·) obs.input_obs.min_vals s),
         torchMax (List.zipWith (· * ·) obs.input_obs.max_vals s)) := by
      rw [calculate_scaled_minmax, if_neg]
      · simp [hes, mulBroadcast, InputEqualizationObserver.get_input_minmax]
      · simp [hes, QTensor.nelement, hne]
    refine ⟨hcalc, ?_⟩
    simp only [scale_input_observer, hmod, hargs, hfind, hq, hcalc]

/-- C6 counterexample: with an unfinalized equalization scale,
`scale_input_observer` does not leave the quantization observer's recorded
range `(5, 7)` untouched — it overwrites it with the default zero range. -/
theorem C6_unfinalized_overwrites_counterexample :
    exModules6 "qmod" = some (.quantObs 5 7) ∧
    calculate_scaled_minmax ⟨⟨[1], [2]⟩, .vec []⟩ = (true, 0, 0) ∧
    scale_input_observer exNode6 exGraph6 exModules6 =
      .ok (setModule exModules6 "qmod" (.quantObs 0 0)) ∧
    setModule exModules6 "qmod" (.quantObs 0 0) "qmod" = some (.quantObs 0 0) ∧
    some (FxModule.quantObs 0 0) ≠ some (FxModule.quantObs 5 7) := by
  have hcalc : calculate_scaled_minmax ⟨⟨[1], [2]⟩, .vec []⟩ = (true, 0, 0) := by
    simp [calculate_scaled_minmax, QTensor.nelement]
  exact ⟨by simp [exModules6], hcalc, rfl, by simp [setModule], by norm_num⟩

/-- Witness for C6 at a finalized scale `[2]` on the input range `[1, 2]`:
the quantization observer receives the scaled range `(2, 4)`. -/
theorem C6_scale_input_observer_witness :
    calculate_scaled_minmax ⟨⟨[1], [2]⟩, .vec [2]⟩ =
      (false, torchMin (List.zipWith (· * ·) [1] [2]),
       torchMax (List.zipWith (· * ·) [2] [2])) ∧
    scale_input_observer exNode6 exGraph6 exModules6w =
      .ok (setModule exModules6w "qmod"
        (.quantObs (torchMin (List.zipWith (· * ·) [1] [2]))
          (torchMax (List.zipWith (· * ·) [2] [2])))) ∧
    torchMin (List.zipWith (· * ·) [(1 : ℝ)] [2]) = 2 ∧
    torchMax (List.zipWith (· * ·) [(2 : ℝ)] [2]) = 4 := by
  have h := (C6_scale_input_observer exGraph6 exModules6w exNode6 exQNode6
    ⟨⟨[1], [2]⟩, .vec [2]⟩ 5 7 "q" []
    (by simp [exModules6w, exNode6])
    (by simp [exNode6])
    (by simp [findNode, exGraph6, exQNode6, exNode6, List.find?])
    (by simp [exModules6w, exQNode6])).2 [2] rfl (by simp)
  refine ⟨h.1, h.2, ?_, ?_⟩
  · norm_num [torchMin, List.zipWith]
  · norm_num [torchMax, List.zipWith]

/-- C2 counterexample: at a functional operator with a present next-layer
scale `[3]` and an existing stored bias `[5]` (whose `get_attr` node is an
argument of the operator), the rewrite updates the weight slot but leaves the
bias slot at `[5]`, although `5 ≠ 5 * 3` — refuting the bias clause of the
claim as stated. -/
theorem C2_functional_bias_unchanged_counterexample :
    exAttrsF "b1" = some (.ten (.vec [5])) ∧
    (exBAttrF ∈ exGraphF ∧ exBAttrF.op = FxOp.get_attr ∧ exBAttrF.target = "b1" ∧
      exBAttrF.name ∈ exOpF.args) ∧
    scale_weight_functional exOpF exGraphF exAttrsF exModulesF (.vec [2])
      (some (.vec [3])) = .ok (setAttr exAttrsF "w1" (.mat [[4 * 2⁻¹ * 3]])) ∧
    setAttr exAttrsF "w1" (.mat [[4 * 2⁻¹ * 3]]) "b1" = some (.ten (.vec [5])) ∧
    (5 : ℝ) ≠ 5 * 3 := by
  refine ⟨rfl, ⟨by decide, rfl, rfl, by decide⟩, rfl, rfl, by norm_num⟩

/-- Witness for the amended C2 at the concrete bound module
(`weight [[4]]`, `bias [5]`) and functional fixture (`weight [[4]]`), with
`scale [2]` and next scale `[3]`. -/
theorem C2_weight_rewrite_witness :
    (∃ ms₁ W₁, scale_weight_node ⟨"lin1", .call_module, "linmod", ["q0"]⟩
        exModulesC2W (.vec [2]) none = .ok ms₁ ∧
      ms₁ "linmod" = some (.linear W₁ (some [5])) ∧
      (∀ k, k ≠ "linmod" → ms₁ k = exModulesC2W k) ∧
      W₁.length = 1 ∧
      (∀ i, i < 1 → ∀ j, j < 1 →
        (W₁.getD i []).getD j 0 =
          ([[(4 : ℝ)]].getD i []).getD j 0 * ([(2 : ℝ)].getD j 0)⁻¹)) ∧
    (∃ ms₂ W₂ b₂, scale_weight_node ⟨"lin1", .call_module, "linmod", ["q0"]⟩
        exModulesC2W (.vec [2]) (some (.vec [3])) = .ok ms₂ ∧
      ms₂ "linmod" = some (.linear W₂ (some b₂)) ∧
      (∀ k, k ≠ "linmod" → ms₂ k = exModulesC2W k) ∧
      (∀ i, i < 1 → ∀ j, j < 1 →
        (W₂.getD i []).getD j 0 =
          ([[(4 : ℝ)]].getD i []).getD j 0 * ([(2 : ℝ)].getD j 0)⁻¹ *
            [(3 : ℝ)].getD i 0) ∧
      (∀ i, i < 1 → b₂.getD i 0 = [(5 : ℝ)].getD i 0 * [(3 : ℝ)].getD i 0)) ∧
    (∃ attrs₃ W₃, scale_weight_functional exOpF exGraphF exAttrsF exModulesC2W
        (.vec [2]) (some (.vec [3])) = .ok attrs₃ ∧
      attrs₃ "w1" = some (.mat W₃) ∧
      (∀ k, k ≠ "w1" → attrs₃ k = exAttrsF k) ∧
      (∀ i, i < 1 → ∀ j, j < 1 →
        (W₃.getD i []).getD j 0 =
          ([[(4 : ℝ)]].getD i []).getD j 0 * ([(2 : ℝ)].getD j 0)⁻¹ *
            [(3 : ℝ)].getD i 0)) :=
  C2_weight_rewrite ⟨"lin1", .call_module, "linmod", ["q0"]⟩ exModulesC2W
    [[4]] [5] [2] [3] exGraphF exAttrsF exOpF exWENodeF exWQNodeF exWAttrF
    "x" "we" "wq" "w1" ["linear1_bias"] [] [] [[4]]
    rfl
    (by intro i hi; simp at hi; subst hi; simp)
    rfl rfl rfl rfl rfl rfl rfl rfl rfl rfl rfl rfl rfl rfl
    (by decide)
    (by intro i hi; simp at hi; subst hi; simp)
    rfl

/-- C7 (code bug): at a functional operator with next scale `[10]` and a
stored bias `[5]` behind the `get_attr` node `linear1_bias`, the rewrite
leaves the bias slot unchanged: the bias lookup scans the operator's users
(here only the output quantization observer), and a `get_attr` node is never
among a node's users, so the elementwise multiplication by the next scale
(which would give `[50]`) never happens. -/
theorem C7_functional_bias_left_unscaled :
    exAttrsF "b1" = some (.ten (.vec [5])) ∧
    node_users exGraphF "op1" = [exOutQF] ∧
    exOutQF.op ≠ FxOp.get_attr ∧
    scale_weight_functional exOpF exGraphF exAttrsF exModulesF (.vec [1])
      (some (.vec [10])) = .ok (setAttr exAttrsF "w1" (.mat [[4 * 1⁻¹ * 10]])) ∧
    setAttr exAttrsF "w1" (.mat [[4 * 1⁻¹ * 10]]) "b1" = some (.ten (.vec [5])) ∧
    mulBroadcast [5] (.vec [10]) = [50] ∧ (5 : ℝ) ≠ 50 := by
  refine ⟨rfl, by decide, by decide, rfl, rfl, ?_, by norm_num⟩
  simp [mulBroadcast]
  norm_num

theorem mgfwn_never_none (g : FxGraph) (op : FxNode) (ms : Modules) (attr : String) :
    maybe_get_functional_weight_node g op ms attr ≠ .ok none := by
  intro h
  unfold maybe_get_functional_weight_node at h
  iterate 8 (all_goals try split at h)
  all_goals simp_all

/-- C8 (amended): `maybe_get_functional_weight_node` either raises or returns
a node, never `None`, so the `return` guard inside `convert_eq_obs`'s loop is
unreachable: no execution of the loop body ends the pass early.  When the
probe genuinely cannot be found, the lookup raises and the exception aborts
the whole pass (see the counterexample). -/
theorem C8_no_silent_return (dict : WeightEqObsDict) (node : FxNode)
    (st : ConvertState) (p : ConvertState × Bool)
    (h : convertStep dict node st = .ok p) : p.2 = false := by
  unfold convertStep at h
  iterate 14 (all_goals try split at h)
  all_goals try simp_all
  all_goals
    first
      | exact absurd (by assumption) (mgfwn_never_none st.graph node st.ms "eq_obs")
      | rw [← h]

/-- C8 counterexample: with the canonical lowering violated (the operator's
weight slot holds the quantization observer directly), the lookup raises an
`AssertionError` — it does not return `None` — and the whole pass aborts with
that error instead of silently returning. -/
theorem C8_lookup_failure_aborts_counterexample :
    maybe_get_functional_weight_node exGraph8 exOp8 exModules8 "eq_obs" =
      .error "AssertionError: expected a WeightEqualizationObserver" ∧
    maybe_get_functional_weight_node exGraph8 exOp8 exModules8 "eq_obs" ≠
      .ok none ∧
    convert_eq_obs exDict8 ⟨exGraph8, exModules8, exAttrs8, 0⟩ =
      .error "AssertionError: expected a WeightEqualizationObserver" := by
  exact ⟨rfl, mgfwn_never_none _ _ _ _, rfl⟩

/-- Witness for C8 at a concrete step that completes without an early
return. -/
theorem C8_no_silent_return_witness :
    convertStep exDict8 ⟨"x8", .placeholder, "x8", []⟩
      ⟨exGraph8, exModules8, exAttrs8, 0⟩ =
      .ok (⟨exGraph8, exModules8, exAttrs8, 0⟩, false) ∧
    ((⟨exGraph8, exModules8, exAttrs8, 0⟩ : ConvertState), false).2 = false := by
  have h : convertStep exDict8 ⟨"x8", .placeholder, "x8", []⟩
      ⟨exGraph8, exModules8, exAttrs8, 0⟩ =
      .ok (⟨exGraph8, exModules8, exAttrs8, 0⟩, false) := rfl
  exact ⟨h, C8_no_silent_return exDict8 _ _ _ h⟩

theorem isLinearMod_kind (o : Option FxModule) :
    isLinearMod o = (kindOf o == ModKind.linear) := by
  cases o with
  | none => rfl
  | some m => cases m <;> rfl

theorem isInputEqObsMod_kind (o : Option FxModule) :
    isInputEqObsMod o = (kindOf o == ModKind.inputEq) := by
  cases o with
  | none => rfl
  | some m => cases m <;> rfl

theorem isWeightEqObsMod_kind (o : Option FxModule) :
    isWeightEqObsMod o = (kindOf o == ModKind.weightEq) := by
  cases o with
  | none => rfl
  | some m => cases m <;> rfl

theorem nse_congr (ms1 ms2 : Modules) (h : kindsEq ms1 ms2) (n : FxNode) :
    node_supports_equalization n ms1 = node_supports_equalization n ms2 := by
  unfold node_supports_equalization
  cases hop : n.op <;> simp [isLinearMod_kind, h n.target]

theorem find?_congr {α : Type _} (p q : α → Bool) (l : List α)
    (h : ∀ x ∈ l, p x = q x) : l.find? p = l.find? q := by
  induction l with
  | nil => rfl
  | cons a l ih =>
    simp only [List.find?]
    rw [h a (List.mem_cons_self a l)]
    cases q a
    · exact ih (fun x hx => h x (List.mem_cons_of_mem a hx))
    · rfl

theorem kindsEq_apply {ms1 ms2 : Modules} (h : kindsEq ms1 ms2) (t : String) :
    kindOf (ms1 t) = kindOf (ms2 t) := h t

theorem mgfwn_congr (g : FxGraph) (ms1 ms2 : Modules) (h : kindsEq ms1 ms2)
    (op : FxNode) (attr : String) :
    maybe_get_functional_weight_node g op ms1 attr =
      maybe_get_functional_weight_node g op ms2 attr := by
  unfold maybe_get_functional_weight_node
  simp only [isWeightEqObsMod_kind, kindsEq_apply h]

theorem gonweo_congr (g : FxGraph) (ms1 ms2 : Modules) (h : kindsEq ms1 ms2)
    (qcfg : String → Option Unit) (n : FxNode) :
    get_op_node_and_weight_eq_obs n g ms1 qcfg =
      get_op_node_and_weight_eq_obs n g ms2 qcfg := by
  unfold get_op_node_and_weight_eq_obs
  rw [find?_congr _ _ _ (fun x _ => nse_congr ms1 ms2 h x)]
  simp only [isWeightEqObsMod_kind, kindsEq_apply h, mgfwn_congr g ms1 ms2 h]

theorem namedWeightTarget_congr (g : FxGraph) (ms1 ms2 : Modules)
    (h : kindsEq ms1 ms2) (qcfg : String → Option Unit) (n : FxNode) :
    namedWeightTarget g ms1 qcfg n = namedWeightTarget g ms2 qcfg n := by
  unfold namedWeightTarget
  rw [gonweo_congr g ms1 ms2 h qcfg n]

theorem gonweo_named_kind (g : FxGraph) (ms : Modules)
    (qcfg : String → Option Unit) (n op : FxNode) (w : String)
    (h : get_op_node_and_weight_eq_obs n g ms qcfg = .ok (some (op, .named w))) :
    kindOf (ms w) = ModKind.weightEq := by
  unfold get_op_node_and_weight_eq_obs at h
  iterate 8 (all_goals try split at h)
  all_goals simp_all [isWeightEqObsMod_kind]

theorem phase1Step_cases (g : FxGraph) (qcfg : String → Option Unit) (n : FxNode)
    (st st2 : Phase1State) (h : phase1Step g qcfg n st = .ok st2) :
    st2 = st ∨
    ∃ (op_node : FxNode) (iobs : InputEqualizationObserver) (scl : QTensor),
      st.ms n.target = some (.inputEqObs iobs) ∧ n.op = FxOp.call_module ∧
      ((∃ (o o0 : WeightEqualizationObserver),
          get_op_node_and_weight_eq_obs n g st.ms qcfg =
            .ok (some (op_node, .inline o0)) ∧
          st2.ms = setModule st.ms n.target
            (.inputEqObs { iobs with equalization_scale := scl }) ∧
          st2.dict = fun s => if s = op_node.name then
            some (.inline { o with equalization_scale := scl }) else st.dict s) ∨
       (∃ (nm : String) (wobs : WeightEqualizationObserver),
          get_op_node_and_weight_eq_obs n g st.ms qcfg =
            .ok (some (op_node, .named nm)) ∧
          st.ms nm = some (.weightEqObs wobs) ∧
          st2.ms = setModule (setModule st.ms n.target
              (.inputEqObs { iobs with equalization_scale := scl })) nm
            (.weightEqObs { wobs with equalization_scale := scl }) ∧
          st2.dict = fun s => if s = op_node.name then
            some (.named nm) else st.dict s)) := by
  by_cases hcond : (n.op == FxOp.call_module && isInputEqObsMod (st.ms n.target)) = true
  case neg =>
    rw [phase1Step, if_neg hcond] at h
    exact Or.inl (Except.ok.inj h).symm
  case pos =>
    have hop : n.op = FxOp.call_module := by
      have hc := hcond
      simp only [Bool.and_eq_true, beq_iff_eq] at hc
      exact hc.1
    rw [phase1Step, if_pos hcond] at h
    cases hres : get_op_node_and_weight_eq_obs n g st.ms qcfg with
    | error e => rw [hres] at h; simp at h
    | ok oo =>
      rw [hres] at h
      cases oo with
      | none => exact Or.inl (Except.ok.inj h).symm
      | some pair =>
        obtain ⟨op_node, ref⟩ := pair
        cases hmsn : st.ms n.target with
        | none => rw [hmsn] at h; simp at h
        | some m =>
          cases m with
          | linear w b => rw [hmsn] at h; simp at h
          | weightEqObs o => rw [hmsn] at h; simp at h
          | quantObs a b => rw [hmsn] at h; simp at h
          | quantObsReset => rw [hmsn] at h; simp at h
          | other => rw [hmsn] at h; simp at h
          | inputEqObs iobs =>
            simp only [hmsn] at h
            by_cases hopm : (op_node.op == FxOp.call_module) = true
            · simp only [if_pos hopm] at h
              cases ref with
              | inline wobs0 =>
                cases hmw : st.ms op_node.target with
                | none => simp only [hmw] at h; simp at h
                | some m2 =>
                  cases m2 with
                  | inputEqObs o => simp only [hmw] at h; simp at h
                  | weightEqObs o => simp only [hmw] at h; simp at h
                  | quantObs a b => simp only [hmw] at h; simp at h
                  | quantObsReset => simp only [hmw] at h; simp at h
                  | other => simp only [hmw] at h; simp at h
                  | linear w b =>
                    simp only [hmw, WeightEqualizationObserver.forward] at h
                    cases hscl : calculate_equalization_scale iobs
                        { wobs0 with
                          weight_col_obs := record wobs0.weight_col_obs w } with
                    | error e => simp only [hscl] at h; simp at h
                    | ok scl =>
                      simp only [hscl] at h
                      have h2 : st2 = ⟨setModule st.ms n.target
                          (.inputEqObs { iobs with equalization_scale := scl }),
                        fun s => if s = op_node.name then
                          some (.inline { { wobs0 with
                            weight_col_obs := record wobs0.weight_col_obs w } with
                              equalization_scale := scl })
                          else st.dict s⟩ := (Except.ok.inj h).symm
                      exact Or.inr ⟨op_node, iobs, scl, rfl, hop, Or.inl
                        ⟨{ wobs0 with weight_col_obs := record wobs0.weight_col_obs w },
                         wobs0, rfl, by rw [h2], by rw [h2]⟩⟩
              | named nm =>
                simp only [] at h
                cases hwnm : st.ms nm with
                | none => simp only [hwnm] at h; simp at h
                | some m2 =>
                  cases m2 with
                  | inputEqObs o => simp only [hwnm] at h; simp at h
                  | linear w b => simp only [hwnm] at h; simp at h
                  | quantObs a b => simp only [hwnm] at h; simp at h
                  | quantObsReset => simp only [hwnm] at h; simp at h
                  | other => simp only [hwnm] at h; simp at h
                  | weightEqObs wobs =>
                    simp only [hwnm] at h
                    cases hscl : calculate_equalization_scale iobs wobs with
                    | error e => simp only [hscl] at h; simp at h
                    | ok scl =>
                      simp only [hscl] at h
                      have h2 : st2 = ⟨setModule (setModule st.ms n.target
                          (.inputEqObs { iobs with equalization_scale := scl })) nm
                            (.weightEqObs { wobs with equalization_scale := scl }),
                        fun s => if s = op_node.name then
                          some (.named nm) else st.dict s⟩ := (Except.ok.inj h).symm
                      exact Or.inr ⟨op_node, iobs, scl, rfl, hop, Or.inr
                        ⟨nm, wobs, rfl, hwnm, by rw [h2], by rw [h2]⟩⟩
            · simp only [if_neg hopm] at h
              cases ref with
              | inline o =>
                simp only [] at h
                cases hscl : calculate_equalization_scale iobs o with
                | error e => simp only [hscl] at h; simp at h
                | ok scl =>
                  simp only [hscl] at h
                  have h2 : st2 = ⟨setModule st.ms n.target
                      (.inputEqObs { iobs with equalization_scale := scl }),
                    fun s => if s = op_node.name then
                      some (.inline { o with equalization_scale := scl })
                      else st.dict s⟩ := (Except.ok.inj h).symm
                  exact Or.inr ⟨op_node, iobs, scl, rfl, hop, Or.inl
                    ⟨o, o, rfl, by rw [h2], by rw [h2]⟩⟩
              | named nm =>
                simp only [] at h
                cases hwnm : st.ms nm with
                | none => simp only [hwnm] at h; simp at h
                | some m2 =>
                  cases m2 with
                  | inputEqObs o => simp only [hwnm] at h; simp at h
                  | linear w b => simp only [hwnm] at h; simp at h
                  | quantObs a b => simp only [hwnm] at h; simp at h
                  | quantObsReset => simp only [hwnm] at h; simp at h
                  | other => simp only [hwnm] at h; simp at h
                  | weightEqObs wobs =>
                    simp only [hwnm] at h
                    cases hscl : calculate_equalization_scale iobs wobs with
                    | error e => simp only [hscl] at h; simp at h
                    | ok scl =>
                      simp only [hscl] at h
                      have h2 : st2 = ⟨setModule (setModule st.ms n.target
                          (.inputEqObs { iobs with equalization_scale := scl })) nm
                            (.weightEqObs { wobs with equalization_scale := scl }),
                        fun s => if s = op_node.name then
                          some (.named nm) else st.dict s⟩ := (Except.ok.inj h).symm
                      exact Or.inr ⟨op_node, iobs, scl, rfl, hop, Or.inr
                        ⟨nm, wobs, rfl, hwnm, by rw [h2], by rw [h2]⟩⟩

theorem namedWeightTarget_weightEq (g : FxGraph) (ms : Modules)
    (qcfg : String → Option Unit) (n : FxNode) (w : String)
    (h : namedWeightTarget g ms qcfg n = some w) :
    kindOf (ms w) = ModKind.weightEq := by
  unfold namedWeightTarget at h
  cases hg : get_op_node_and_weight_eq_obs n g ms qcfg with
  | error e => simp only [hg] at h; simp at h
  | ok oo =>
    simp only [hg] at h
    cases oo with
    | none => simp at h
    | some pair =>
      obtain ⟨op, ref⟩ := pair
      cases ref with
      | inline o => simp at h
      | named w2 =>
        simp only [Option.some.injEq] at h
        subst h
        exact gonweo_named_kind g ms qcfg n op w2 hg

theorem entry_named_nwt (g : FxGraph) (ms0 : Modules)
    (qcfg : String → Option Unit) (n op : FxNode) (w : String)
    (hd : (∃ o0 o1, WeightObsRef.named w = WeightObsRef.inline o1 ∧
        get_op_node_and_weight_eq_obs n g ms0 qcfg =
          .ok (some (op, .inline o0))) ∨
      (∃ w2, WeightObsRef.named w = WeightObsRef.named w2 ∧
        get_op_node_and_weight_eq_obs n g ms0 qcfg =
          .ok (some (op, .named w2)))) :
    namedWeightTarget g ms0 qcfg n = some w := by
  rcases hd with ⟨o0, o1, habs, -⟩ | ⟨w2, hww, hres⟩
  · exact WeightObsRef.noConfusion habs
  · have hw2 : w = w2 := by injection hww
    subst hw2
    simp only [namedWeightTarget, hres]

theorem phase1Step_preserves (g : FxGraph) (ms0 : Modules)
    (qcfg : String → Option Unit)
    (H1 : ∀ n1 ∈ g, ∀ n2 ∈ g, n1.op = FxOp.call_module →
      n2.op = FxOp.call_module → kindOf (ms0 n1.target) = ModKind.inputEq →
      kindOf (ms0 n2.target) = ModKind.inputEq → n1.target = n2.target → n1 = n2)
    (H2 : ∀ n1 ∈ g, ∀ n2 ∈ g, n1 ≠ n2 → ∀ w : String,
      namedWeightTarget g ms0 qcfg n1 = some w →
      namedWeightTarget g ms0 qcfg n2 = some w → False)
    (n : FxNode) (ns : List FxNode) (st st2 : Phase1State)
    (hmem : n ∈ g) (hnotin : n ∉ ns)
    (hInv : phase1Inv g ms0 qcfg st (n :: ns))
    (h : phase1Step g qcfg n st = .ok st2) :
    phase1Inv g ms0 qcfg st2 ns := by
  obtain ⟨hks, hent⟩ := hInv
  rcases phase1Step_cases g qcfg n st st2 h with rfl |
    ⟨op, iobs, scl, hmsn, hnop, hcase⟩
  · refine ⟨hks, ?_⟩
    intro nm ref href
    obtain ⟨n', hmem', hnotin', hcm', hkind', hprov', obs, hobs, hscale⟩ :=
      hent nm ref href
    exact ⟨n', hmem', fun hc => hnotin' (List.mem_cons_of_mem _ hc), hcm',
      hkind', hprov', obs, hobs, hscale⟩
  · have hkn : kindOf (ms0 n.target) = ModKind.inputEq := by
      rw [hks n.target, hmsn]; rfl
    rcases hcase with ⟨o, o0, hresI, hms2, hdict2⟩ |
      ⟨nmw, wobs, hresolve, hwnm, hms2, hdict2⟩
    · -- inline path: only the input observer's module entry changes
      have hksEq2 : kindsEq ms0 st2.ms := by
        intro t
        rw [hms2]
        by_cases ht : t = n.target
        · rw [ht, setModule_self, hks n.target, hmsn]; rfl
        · rw [setModule_ne _ _ _ _ ht]; exact hks t
      refine ⟨hksEq2, ?_⟩
      intro nm ref href
      rw [hdict2] at href
      simp only [] at href
      by_cases hnm : nm = op.name
      · rw [if_pos hnm] at href
        have href2 : ref = .inline { o with equalization_scale := scl } :=
          (Option.some.inj href).symm
        subst href2
        refine ⟨n, hmem, hnotin, hnop, hkn, ?_,
          { iobs with equalization_scale := scl }, ?_, rfl⟩
        · exact ⟨op, hnm.symm, Or.inl ⟨o0, { o with equalization_scale := scl },
            rfl, (gonweo_congr g ms0 st.ms hks qcfg n).trans hresI⟩⟩
        · rw [hms2, setModule_self]
      · rw [if_neg hnm] at href
        obtain ⟨n', hmem', hnotin', hcm', hkind', hprov', obs, hobs, hscale⟩ :=
          hent nm ref href
        have hne' : n' ≠ n := fun hc => hnotin' (hc ▸ List.mem_cons_self n ns)
        have htne : n'.target ≠ n.target := fun hc =>
          hne' (H1 n' hmem' n hmem hcm' hnop hkind' hkn hc)
        refine ⟨n', hmem', fun hc => hnotin' (List.mem_cons_of_mem _ hc), hcm',
          hkind', hprov', obs, ?_, ?_⟩
        · rw [hms2, setModule_ne _ _ _ _ htne]; exact hobs
        · cases ref with
          | inline ob => exact hscale
          | named w =>
            obtain ⟨op2, -, hd2⟩ := hprov'
            have hw := entry_named_nwt g ms0 qcfg n' op2 w hd2
            have hkw : kindOf (ms0 w) = ModKind.weightEq := by
              have := namedWeightTarget_weightEq g ms0 qcfg n' w hw
              exact this
            have hwne : w ≠ n.target := by
              intro hc; rw [hc, hkn] at hkw; exact ModKind.noConfusion hkw
            simp only [refScale] at hscale ⊢
            rw [hms2, setModule_ne _ _ _ _ hwne]
            exact hscale
    · -- named path: the input observer and the named weight observer change
      have hwmrs : namedWeightTarget g ms0 qcfg n = some nmw := by
        rw [namedWeightTarget_congr g ms0 st.ms hks qcfg n]
        simp only [namedWeightTarget, hresolve]
      have hknmw : kindOf (ms0 nmw) = ModKind.weightEq := by
        rw [hks nmw, hwnm]; rfl
      have htnmw : n.target ≠ nmw := by
        intro hc; rw [← hc, hkn] at hknmw; exact ModKind.noConfusion hknmw
      have hksEq2 : kindsEq ms0 st2.ms := by
        intro t
        rw [hms2]
        by_cases htw : t = nmw
        · rw [htw, setModule_self, hks nmw, hwnm]; rfl
        · rw [setModule_ne _ _ _ _ htw]
          by_cases ht : t = n.target
          · rw [ht, setModule_self, hks n.target, hmsn]; rfl
          · rw [setModule_ne _ _ _ _ ht]; exact hks t
      refine ⟨hksEq2, ?_⟩
      intro nm ref href
      rw [hdict2] at href
      simp only [] at href
      by_cases hnm : nm = op.name
      · rw [if_pos hnm] at href
        have href2 : ref = .named nmw := (Option.some.inj href).symm
        subst href2
        refine ⟨n, hmem, hnotin, hnop, hkn, ?_,
          { iobs with equalization_scale := scl }, ?_, ?_⟩
        · exact ⟨op, hnm.symm, Or.inr ⟨nmw, rfl,
            (gonweo_congr g ms0 st.ms hks qcfg n).trans hresolve⟩⟩
        · rw [hms2, setModule_ne _ nmw n.target _ htnmw, setModule_self]
        · simp only [refScale]
          rw [hms2, setModule_self]
      · rw [if_neg hnm] at href
        obtain ⟨n', hmem', hnotin', hcm', hkind', hprov', obs, hobs, hscale⟩ :=
          hent nm ref href
        have hne' : n' ≠ n := fun hc => hnotin' (hc ▸ List.mem_cons_self n ns)
        have htne : n'.target ≠ n.target := fun hc =>
          hne' (H1 n' hmem' n hmem hcm' hnop hkind' hkn hc)
        have htne2 : n'.target ≠ nmw := by
          intro hc
          rw [hc, hknmw] at hkind'
          exact ModKind.noConfusion hkind'
        refine ⟨n', hmem', fun hc => hnotin' (List.mem_cons_of_mem _ hc), hcm',
          hkind', hprov', obs, ?_, ?_⟩
        · rw [hms2, setModule_ne _ nmw n'.target _ htne2,
            setModule_ne _ n.target n'.target _ htne]
          exact hobs
        · cases ref with
          | inline ob => exact hscale
          | named w =>
            obtain ⟨op2, -, hd2⟩ := hprov'
            have hw := entry_named_nwt g ms0 qcfg n' op2 w hd2
            have hkw : kindOf (ms0 w) = ModKind.weightEq :=
              namedWeightTarget_weightEq g ms0 qcfg n' w hw
            have hwne : w ≠ n.target := by
              intro hc; rw [hc, hkn] at hkw; exact ModKind.noConfusion hkw
            have hwne2 : w ≠ nmw := by
              intro hc
              exact H2 n' hmem' n hmem hne' w hw (hc ▸ hwmrs)
            simp only [refScale] at hscale ⊢
            rw [hms2, setModule_ne _ nmw w _ hwne2, setModule_ne _ n.target w _ hwne]
            exact hscale

theorem phase1Loop_inv (g : FxGraph) (ms0 : Modules) (qcfg : String → Option Unit)
    (hnodup : g.Nodup)
    (H1 : ∀ n1 ∈ g, ∀ n2 ∈ g, n1.op = FxOp.call_module →
      n2.op = FxOp.call_module → kindOf (ms0 n1.target) = ModKind.inputEq →
      kindOf (ms0 n2.target) = ModKind.inputEq → n1.target = n2.target → n1 = n2)
    (H2 : ∀ n1 ∈ g, ∀ n2 ∈ g, n1 ≠ n2 → ∀ w : String,
      namedWeightTarget g ms0 qcfg n1 = some w →
      namedWeightTarget g ms0 qcfg n2 = some w → False) :
    ∀ ns : List FxNode, ns.Sublist g → ∀ st final : Phase1State,
      phase1Inv g ms0 qcfg st ns →
      phase1Loop g qcfg ns st = .ok final →
      phase1Inv g ms0 qcfg final [] := by
  intro ns
  induction ns with
  | nil =>
    intro _ st final hInv hrun
    have hfs : st = final := Except.ok.inj hrun
    subst hfs
    exact hInv
  | cons n rest ih =>
    intro hsub st final hInv hrun
    have hmem : n ∈ g := hsub.subset (List.mem_cons_self n rest)
    have hrest_sub : rest.Sublist g := (List.sublist_cons_self n rest).trans hsub
    have hnd : (n :: rest).Nodup := List.Nodup.sublist hsub hnodup
    have hnotin : n ∉ rest := (List.nodup_cons.mp hnd).1
    cases hstep : phase1Step g qcfg n st with
    | error e =>
      simp only [phase1Loop, hstep] at hrun
      exact absurd hrun (by simp)
    | ok st1 =>
      simp only [phase1Loop, hstep] at hrun
      exact ih hrest_sub st1 final
        (phase1Step_preserves g ms0 qcfg H1 H2 n rest st st1 hmem hnotin hInv hstep)
        hrun

/-- C9: after phase 1 completes, every entry of the returned map, keyed by an
operator name `nm`, comes from a matched input-observer site `n` whose
resolution `get_op_node_and_weight_eq_obs` (on the prepared model) found
exactly the operator named `nm` together with the entry's weight
equalization observer — the entry's own observer on the functional/inline
path, the entry's named weight-observer module on the bound path — and the
weight-side scale held by the entry equals the scale held by that site's
input equalization observer (both were assigned the single vector computed
by `calculate_equalization_scale` for that site).  The hypotheses say the
prepared graph is well formed: node values are not repeated, no two
distinct input-observer nodes share an observer module, and no two distinct
sites resolve to the same functional weight observer module. -/
theorem C9_phase1_scales_agree (g : FxGraph) (ms0 : Modules)
    (qcfg : String → Option Unit) (final : Phase1State)
    (hnodup : g.Nodup)
    (H1 : ∀ n1 ∈ g, ∀ n2 ∈ g, n1.op = FxOp.call_module →
      n2.op = FxOp.call_module → kindOf (ms0 n1.target) = ModKind.inputEq →
      kindOf (ms0 n2.target) = ModKind.inputEq → n1.target = n2.target → n1 = n2)
    (H2 : ∀ n1 ∈ g, ∀ n2 ∈ g, n1 ≠ n2 → ∀ w : String,
      namedWeightTarget g ms0 qcfg n1 = some w →
      namedWeightTarget g ms0 qcfg n2 = some w → False)
    (hrun : update_obs_for_equalization g ms0 qcfg = .ok final) :
    ∀ nm ref, final.dict nm = some ref →
      ∃ n op, n ∈ g ∧ op.name = nm ∧
        ((∃ o0 o1, ref = .inline o1 ∧
           get_op_node_and_weight_eq_obs n g ms0 qcfg =
             .ok (some (op, .inline o0))) ∨
         (∃ w, ref = .named w ∧
           get_op_node_and_weight_eq_obs n g ms0 qcfg =
             .ok (some (op, .named w)))) ∧
        ∃ obs, final.ms n.target = some (.inputEqObs obs) ∧
          refScale final.ms ref = some obs.equalization_scale := by
  have hInv0 : phase1Inv g ms0 qcfg ⟨ms0, fun _ => none⟩ g := by
    refine ⟨fun t => rfl, ?_⟩
    intro nm ref h
    simp at h
  have hfin := phase1Loop_inv g ms0 qcfg hnodup H1 H2 g (List.Sublist.refl g)
    ⟨ms0, fun _ => none⟩ final hInv0 hrun
  intro nm ref href
  obtain ⟨n, hmem, -, -, -, ⟨op, hopn, hdisj⟩, obs, hobs, hscale⟩ :=
    hfin.2 nm ref href
  exact ⟨n, op, hmem, hopn, hdisj, obs, hobs, hscale⟩

/-- Witness for C9 on a single bound-linear site whose inverted input range
forces the identity-fallback scale: the map's entry under the operator name
is linked back to the site that matched that operator, and the entry and the
site's input observer both hold the scalar scale `1`. -/
theorem C9_phase1_scales_agree_witness :
    update_obs_for_equalization exGraph9 exModules9 exQcfg9 = .ok exFinal9 ∧
    exFinal9.dict "lin9" = some (.inline ⟨⟨[2], [2]⟩, .scalar 1⟩) ∧
    (∃ n op, n ∈ exGraph9 ∧ op.name = "lin9" ∧
      ((∃ o0 o1, (WeightObsRef.inline ⟨⟨[2], [2]⟩, .scalar 1⟩ : WeightObsRef) =
           .inline o1 ∧
         get_op_node_and_weight_eq_obs n exGraph9 exModules9 exQcfg9 =
           .ok (some (op, .inline o0))) ∨
       (∃ w, (WeightObsRef.inline ⟨⟨[2], [2]⟩, .scalar 1⟩ : WeightObsRef) =
           .named w ∧
         get_op_node_and_weight_eq_obs n exGraph9 exModules9 exQcfg9 =
           .ok (some (op, .named w)))) ∧
      ∃ obs, exFinal9.ms n.target = some (.inputEqObs obs) ∧
        refScale exFinal9.ms (.inline ⟨⟨[2], [2]⟩, .scalar 1⟩) =
          some obs.equalization_scale) := by
  have hcalc : calculate_equalization_scale ⟨⟨[1], [0]⟩, .vec []⟩
      ⟨⟨[2], [2]⟩, .vec []⟩ = .ok (.scalar 1) := by
    unfold calculate_equalization_scale
    rw [if_pos]
    intro hc
    have h10 := hc.1.2.2 (1, 0)
      (by simp [List.zip, InputEqualizationObserver.get_input_minmax])
    norm_num at h10
  have hgon : get_op_node_and_weight_eq_obs exE9 exGraph9
      ((⟨exModules9, fun _ => none⟩ : Phase1State).ms) exQcfg9 =
      .ok (some (exLin9, .inline ⟨⟨[], []⟩, .vec []⟩)) := rfl
  have hcond : (exE9.op == FxOp.call_module && isInputEqObsMod
      ((⟨exModules9, fun _ => none⟩ : Phase1State).ms exE9.target)) = true := rfl
  have hstep : phase1Step exGraph9 exQcfg9 exE9 ⟨exModules9, fun _ => none⟩ =
      .ok exFinal9 := by
    rw [phase1Step, if_pos hcond, hgon]
    simp [exE9, exLin9, exModules9, exQcfg9, exFinal9,
      WeightEqualizationObserver.forward, record, colReduce, hcalc, setModule]
  have hrun : update_obs_for_equalization exGraph9 exModules9 exQcfg9 =
      .ok exFinal9 := by
    have h1 : phase1Step exGraph9 exQcfg9 ⟨"x9", .placeholder, "x9", []⟩
        ⟨exModules9, fun _ => none⟩ = .ok ⟨exModules9, fun _ => none⟩ := rfl
    have h2 : phase1Step exGraph9 exQcfg9 ⟨"q9", .call_module, "q9mod", ["x9"]⟩
        ⟨exModules9, fun _ => none⟩ = .ok ⟨exModules9, fun _ => none⟩ := rfl
    have h4 : phase1Step exGraph9 exQcfg9 exLin9 exFinal9 = .ok exFinal9 := rfl
    show phase1Loop exGraph9 exQcfg9
      [⟨"x9", .placeholder, "x9", []⟩, ⟨"q9", .call_module, "q9mod", ["x9"]⟩,
       exE9, exLin9] ⟨exModules9, fun _ => none⟩ = .ok exFinal9
    simp only [phase1Loop, h1, h2, hstep, h4]
  have hH2 : ∀ n1 ∈ exGraph9, ∀ n2 ∈ exGraph9, n1 ≠ n2 → ∀ w : String,
      namedWeightTarget exGraph9 exModules9 exQcfg9 n1 = some w →
      namedWeightTarget exGraph9 exModules9 exQcfg9 n2 = some w → False := by
    have hall : ∀ m ∈ exGraph9,
        namedWeightTarget exGraph9 exModules9 exQcfg9 m = none := by decide
    intro n1 h1 _ _ _ w hw _
    rw [hall n1 h1] at hw
    exact Option.noConfusion hw
  refine ⟨hrun, rfl, ?_⟩
  exact C9_phase1_scales_agree exGraph9 exModules9 exQcfg9 exFinal9 (by decide)
    (by decide) hH2 hrun "lin9" (.inline ⟨⟨[2], [2]⟩, .scalar 1⟩) rfl

theorem remove_node_shape (g : FxGraph) (node prev : FxNode) (m : FxNode)
    (hm : m ∈ remove_node g node prev) :
    m.name ≠ node.name ∧
      ∃ m0, m0 ∈ g ∧ m = replace_input_with m0 node.name prev.name := by
  unfold remove_node at hm
  rw [List.mem_filter] at hm
  obtain ⟨hmap, hname⟩ := hm
  rw [List.mem_map] at hmap
  obtain ⟨m0, hm0, rfl⟩ := hmap
  exact ⟨by simpa using hname, m0, hm0, rfl⟩

theorem replace_input_with_no_old (m0 : FxNode) (old new_arg : String)
    (hne : new_arg ≠ old) : old ∉ (replace_input_with m0 old new_arg).args := by
  intro hmem
  simp only [replace_input_with, List.mem_map] at hmem
  obtain ⟨x, _, hEq⟩ := hmem
  by_cases hxo : x = old
  · rw [if_pos hxo] at hEq; exact hne hEq
  · rw [if_neg hxo] at hEq; exact hxo hEq

/-- C3: at an input-equalization-probe node whose predecessor (the node
feeding the input-quantization probe) is itself a supported linear operator,
phase 2 inserts nothing: the resulting graph is exactly the old graph with
the probe node erased and its consumers relinked to the quantization-probe
node.  In particular every node of the result corresponds to a node of the
original graph with the same name, op and target (so no multiply node and no
scale-constant node were created), the probe node is gone, and no argument
references it anymore. -/
theorem C3_chained_linear_no_mul (dict : WeightEqObsDict) (st : ConvertState)
    (node qn prev : FxNode) (obs : InputEqualizationObserver) (ms2 : Modules)
    (a p : String) (rest prest : List String)
    (hnode_op : node.op = FxOp.call_module)
    (hmod : st.ms node.target = some (.inputEqObs obs))
    (hargs : node.args = a :: rest)
    (hfind_q : findNode st.graph a = some qn)
    (hq_args : qn.args = p :: prest)
    (hfind_p : findNode st.graph p = some prev)
    (hsio : scale_input_observer node st.graph st.ms = .ok ms2)
    (hsup : node_supports_equalization prev ms2 = true)
    (hqn_ne : qn.name ≠ node.name) :
    convertStep dict node st =
      .ok ({ st with graph := remove_node st.graph node qn, ms := ms2 }, false) ∧
    (∀ m, m ∈ remove_node st.graph node qn → m.name ≠ node.name) ∧
    (∀ m, m ∈ remove_node st.graph node qn →
      ∃ m0, m0 ∈ st.graph ∧ m.name = m0.name ∧ m.op = m0.op ∧ m.target = m0.target ∧
        m.args = m0.args.map (fun x => if x = node.name then qn.name else x)) ∧
    (∀ m, m ∈ remove_node st.graph node qn → node.name ∉ m.args) := by
  refine ⟨?_, ?_, ?_, ?_⟩
  · have hcond : (node.op == FxOp.call_module &&
        isInputEqObsMod (st.ms node.target)) = true := by
      simp [hnode_op, hmod, isInputEqObsMod]
    simp only [convertStep, hcond, if_true, hargs, hfind_q, hq_args, hfind_p, hsio,
      hsup, if_true]
  · intro m hm
    exact (remove_node_shape st.graph node qn m hm).1
  · intro m hm
    obtain ⟨-, m0, hm0, rfl⟩ := remove_node_shape st.graph node qn m hm
    exact ⟨m0, hm0, rfl, rfl, rfl, rfl⟩
  · intro m hm
    obtain ⟨-, m0, hm0, rfl⟩ := remove_node_shape st.graph node qn m hm
    exact replace_input_with_no_old m0 node.name qn.name hqn_ne

/-- Witness for C3 on the chained-linear fixture: processing the second
probe node deletes it and relinks its consumer to the quantization probe,
with no node inserted. -/
theorem C3_chained_linear_no_mul_witness :
    convertStep (fun _ => none) exE2Node3 ⟨exGraph3, exModules3, fun _ => none, 0⟩ =
      .ok (⟨remove_node exGraph3 exE2Node3 exQ2Node3,
        setModule exModules3 "q2mod" (.quantObs (1 * 2) (3 * 2)),
        fun _ => none, 0⟩, false) ∧
    (∀ m, m ∈ remove_node exGraph3 exE2Node3 exQ2Node3 → m.name ≠ exE2Node3.name) ∧
    (∀ m, m ∈ remove_node exGraph3 exE2Node3 exQ2Node3 →
      ∃ m0, m0 ∈ exGraph3 ∧ m.name = m0.name ∧ m.op = m0.op ∧ m.target = m0.target ∧
        m.args = m0.args.map
          (fun x => if x = exE2Node3.name then exQ2Node3.name else x)) ∧
    (∀ m, m ∈ remove_node exGraph3 exE2Node3 exQ2Node3 →
      exE2Node3.name ∉ m.args) :=
  C3_chained_linear_no_mul (fun _ => none) ⟨exGraph3, exModules3, fun _ => none, 0⟩
    exE2Node3 exQ2Node3 exLin1Node3 ⟨⟨[1], [3]⟩, .vec [2]⟩
    (setModule exModules3 "q2mod" (.quantObs (1 * 2) (3 * 2)))
    "q2" "lin1" [] []
    rfl rfl rfl rfl rfl rfl rfl rfl (by decide)

end Equalize
